import Mathlib

/-!
# Client-side logic of the site

A shallow embedding of the pure logic of the review widget
(`js/web-components/review/review-component.js`), the carousel
(`js/carousel.js`) and the contact form (`js/script.js`), followed by the
properties proved about it.

Conventions of the embedding:

* a JavaScript string is the list of its UTF-16 code units;
* a regular expression literal is a value of `Regex`, run by a derivative
  matcher;
* `localStorage` is a map from keys to stored texts, a stored text being
  identified with what `JSON.parse` makes of it;
* timers (`setTimeout`) are not modelled: a delayed callback is a function of
  the state in which it eventually runs.
-/

namespace Site

/-! ## JavaScript strings -/

/-- A UTF-16 code unit. -/
abbrev CodeUnit := Nat

/-- A JavaScript string, as the sequence of its UTF-16 code units. -/
abbrev JSString := List CodeUnit

/-- UTF-16 encoding of one Unicode scalar value. -/
def utf16 (c : Char) : List CodeUnit :=
  if c.toNat < 0x10000 then [c.toNat]
  else [0xD800 + (c.toNat - 0x10000) / 0x400, 0xDC00 + (c.toNat - 0x10000) % 0x400]

/-- The JavaScript string denoted by a string literal of the source. -/
def lit (s : String) : JSString :=
  (s.toList.map utf16).flatten

/-- ECMAScript `WhiteSpace` and `LineTerminator` code points: what `String.prototype.trim`
strips and what the regular expression class `\s` matches. -/
def isWhiteSpace (c : CodeUnit) : Bool :=
  c == 0x09 || c == 0x0A || c == 0x0B || c == 0x0C || c == 0x0D || c == 0x20 ||
  c == 0xA0 || c == 0x1680 || (0x2000 ≤ c && c ≤ 0x200A) || c == 0x2028 || c == 0x2029 ||
  c == 0x202F || c == 0x205F || c == 0x3000 || c == 0xFEFF

/-- The regular expression class `\d`. -/
def isDigit (c : CodeUnit) : Bool :=
  0x30 ≤ c && c ≤ 0x39

/-- `String.prototype.trimStart`. -/
def trimStart (s : JSString) : JSString :=
  s.dropWhile isWhiteSpace

/-- `String.prototype.trimEnd`. -/
def trimEnd (s : JSString) : JSString :=
  (s.reverse.dropWhile isWhiteSpace).reverse

/-- `String.prototype.trim`. -/
def trim (s : JSString) : JSString :=
  trimEnd (trimStart s)

/-! ## Regular expressions -/

/-- Abstract syntax of the regular expressions used by the site. -/
inductive Regex where
  | fail
  | eps
  | cls (p : CodeUnit → Bool)
  | seq (r s : Regex)
  | alt (r s : Regex)
  | star (r : Regex)

namespace Regex

/-- A single literal code unit. -/
def unit (c : CodeUnit) : Regex :=
  cls (fun d => d == c)

/-- The quantifier `{n,}`; `+` is `{1,}`. -/
def atLeast : Nat → Regex → Regex
  | 0, r => star r
  | n + 1, r => seq r (atLeast n r)

/-- The quantifier `+`. -/
def plus (r : Regex) : Regex :=
  atLeast 1 r

/-- Does the expression match the empty string? -/
def nullable : Regex → Bool
  | fail => false
  | eps => true
  | cls _ => false
  | seq r s => r.nullable && s.nullable
  | alt r s => r.nullable || s.nullable
  | star _ => true

/-- Brzozowski derivative with respect to one code unit. -/
def deriv (c : CodeUnit) : Regex → Regex
  | fail => fail
  | eps => fail
  | cls p => if p c then eps else fail
  | seq r s => if r.nullable then alt (seq (r.deriv c) s) (s.deriv c) else seq (r.deriv c) s
  | alt r s => alt (r.deriv c) (s.deriv c)
  | star r => seq (r.deriv c) (star r)

/-- `/^r$/.test(w)`: the whole of `w` is matched by `r`. -/
def fullMatch (r : Regex) : JSString → Bool
  | [] => r.nullable
  | c :: cs => fullMatch (r.deriv c) cs

end Regex

/-- `text.replace(/r/g, f)` for an expression `r` all of whose matches are one code unit long
(a character class or an alternation of single characters): scanning left to right, each
matching code unit `m` is replaced by `f(m)`, every other one is kept. -/
def replaceAll (r : Regex) (f : JSString → JSString) : JSString → JSString
  | [] => []
  | c :: cs => (if r.fullMatch [c] then f [c] else [c]) ++ replaceAll r f cs

/-! ## ReviewManager.escapeHtml -/

/-- The object literal `map` of `escapeHtml`, as the lookup `map[m]`
(`none` is `undefined`). -/
def escapeMap (m : JSString) : Option JSString :=
  if m = lit "&" then some (lit "&amp;")
  else if m = lit "<" then some (lit "&lt;")
  else if m = lit ">" then some (lit "&gt;")
  else if m = lit "\"" then some (lit "&quot;")
  else if m = [39] then some (lit "&#039;")
  else none

/-- The regular expression `/[&<>"']/` of `escapeHtml`. -/
def htmlSpecialRegex : Regex :=
  .cls (fun c => c == 38 || c == 60 || c == 62 || c == 34 || c == 39)

/-- `ReviewManager.escapeHtml(text)`. A replacement value `undefined` would be
converted to the string "undefined". -/
def escapeHtml (text : JSString) : JSString :=
  replaceAll htmlSpecialRegex (fun m => (escapeMap m).getD (lit "undefined")) text

/-- The image of one character under escaping, in the words of the specification:
the five HTML-significant characters go to their entities, any other to itself. -/
def escapeImage (c : CodeUnit) : JSString :=
  if c = 38 then lit "&amp;"
  else if c = 60 then lit "&lt;"
  else if c = 62 then lit "&gt;"
  else if c = 34 then lit "&quot;"
  else if c = 39 then lit "&#039;"
  else [c]

/-- The five entities produced by escaping. -/
def entities : List JSString :=
  [lit "&amp;", lit "&lt;", lit "&gt;", lit "&quot;", lit "&#039;"]

/-! ## JSON values and localStorage -/

/-- The values `JSON.parse` can return. Of the numbers only the integers are represented,
which is all that the truthiness test needs to tell apart. -/
inductive JSValue where
  | null
  | bool (b : Bool)
  | num (n : Int)
  | str (s : JSString)
  | arr (items : List JSValue)
  | obj (props : List (JSString × JSValue))

/-- A text held by `localStorage`, identified with what `JSON.parse` makes of it: a value,
or a `SyntaxError`. -/
inductive StoredText where
  | json (v : JSValue)
  | malformed

/-- The contents of `localStorage`: `none` for a key without entry. -/
structure LocalStorage where
  items : JSString → Option StoredText

/-- A storage without any entry. -/
def LocalStorage.empty : LocalStorage :=
  { items := fun _ => none }

/-- `localStorage.getItem(key)`; `none` is `null`. -/
def LocalStorage.getItem (ls : LocalStorage) (key : JSString) : Option StoredText :=
  ls.items key

/-- `localStorage.setItem(key, text)`, when the write is accepted. -/
def LocalStorage.setItem (ls : LocalStorage) (key : JSString) (text : StoredText) : LocalStorage :=
  { items := fun k => if k = key then some text else ls.items k }

/-- `JSON.parse(item)` for the result of `getItem`: `null` is converted to the text "null",
which parses to `null`; `none` is a thrown `SyntaxError`. -/
def jsonParse : Option StoredText → Option JSValue
  | none => some .null
  | some (.json v) => some v
  | some .malformed => none

/-- `JSON.stringify(v)` for a value made of arrays, objects, strings, numbers, booleans and
`null`: a text that parses back to `v`. -/
def jsonStringify (v : JSValue) : StoredText :=
  .json v

/-- JavaScript truthiness (`ToBoolean`). -/
def truthy : JSValue → Bool
  | .null => false
  | .bool b => b
  | .num n => n != 0
  | .str s => !s.isEmpty
  | .arr _ => true
  | .obj _ => true

/-- The expression `v || []`. -/
def orEmptyArray (v : JSValue) : JSValue :=
  if truthy v then v else .arr []

/-- The string iterator: a string is traversed by code points, a well-formed surrogate pair
counting as one element. -/
def codePoints : JSString → List JSString
  | [] => []
  | [c] => [[c]]
  | c :: d :: rest =>
    if 0xD800 ≤ c ∧ c ≤ 0xDBFF ∧ 0xDC00 ≤ d ∧ d ≤ 0xDFFF then [c, d] :: codePoints rest
    else [c] :: codePoints (d :: rest)

/-- The elements produced by spreading `...v` into an array literal; `none` is the
`TypeError` raised for a value that is not iterable. -/
def spread : JSValue → Option (List JSValue)
  | .arr items => some items
  | .str s => some ((codePoints s).map JSValue.str)
  | _ => none

/-! ## Form fields -/

/-- A form control (`input`, `textarea` or `select`) with the part of its surroundings that
validation reads and writes. -/
structure Field where
  /-- The property `field.type`. -/
  type : JSString
  /-- The property `field.name`. -/
  name : JSString
  /-- The property `field.value`. -/
  value : JSString
  /-- The attribute `required`. -/
  required : Bool
  /-- The value restored by `form.reset()`. -/
  defaultValue : JSString
  /-- Is `error` in `field.classList`? -/
  errorClass : Bool
  /-- The `textContent` of the `.error-message` element next to the field, when there is one. -/
  errorElement : Option JSString

/-- The display step shared by both `validateField` functions when the field is invalid. -/
def Field.markInvalid (field : Field) (msg : JSString) : Field :=
  { field with errorClass := true, errorElement := field.errorElement.map (fun _ => msg) }

/-- The display step shared by both `validateField` functions when the field is valid. -/
def Field.markValid (field : Field) : Field :=
  { field with errorClass := false, errorElement := field.errorElement.map (fun _ => []) }

/-! ## Contact form (`js/script.js`) -/

namespace Contact

/-- The class `[^\s@]`. -/
def notSpaceNorAt : Regex :=
  .cls (fun c => !(isWhiteSpace c || c == 64))

/-- The body of `emailRegex = /^[^\s@]+@[^\s@]+\.[^\s@]+$/`. -/
def emailRegex : Regex :=
  .seq notSpaceNorAt.plus (.seq (.unit 64) (.seq notSpaceNorAt.plus (.seq (.unit 46) notSpaceNorAt.plus)))

/-- The body of `phoneRegex = /^\d{10,}$/`. -/
def phoneRegex : Regex :=
  .atLeast 10 (.cls isDigit)

/-- The expression `/\s|-|\.|\(/` whose matches are removed from a phone number. -/
def phoneSeparators : Regex :=
  .alt (.cls isWhiteSpace) (.alt (.unit 45) (.alt (.unit 46) (.unit 40)))

/-- The `switch (field.type)` of `validateField`: validity and error text. -/
def check (field : Field) : Bool × JSString :=
  let value := trim field.value
  if field.type = lit "email" then
    (emailRegex.fullMatch value, lit "Veuillez entrer une adresse email valide.")
  else if field.type = lit "tel" then
    (phoneRegex.fullMatch (replaceAll phoneSeparators (fun _ => []) value),
      lit "Veuillez entrer un numéro valide (minimum 10 chiffres).")
  else if field.type = lit "text" then
    (decide (value.length ≥ 2), lit "Veuillez entrer un nom valide (minimum 2 caractères).")
  else if field.type = lit "select-one" then
    (decide (field.value ≠ []), lit "Veuillez sélectionner une option.")
  else if field.type = lit "textarea" then
    (decide (value.length ≥ 10), lit "Veuillez entrer un message (minimum 10 caractères).")
  else
    (decide (value.length > 0), lit "Ce champ est requis.")

/-- The contact form's `validateField(field)`: the returned `isValid` and the field as
displayed afterwards. Without an `.error-message` element nothing is displayed. -/
def validateField (field : Field) : Bool × Field :=
  let r := check field
  if !r.1 && field.errorElement.isSome then (r.1, field.markInvalid r.2)
  else if field.errorElement.isSome then (r.1, field.markValid)
  else (r.1, field)

/-- The separators of a phone number: whitespace, hyphen, dot and open parenthesis. -/
def isPhoneSeparator (c : CodeUnit) : Bool :=
  isWhiteSpace c || c == 45 || c == 46 || c == 40

/-- A value from which every separator has been removed, as the specification words it. -/
def withoutSeparators (v : JSString) : JSString :=
  v.filter (fun c => !isPhoneSeparator c)

/-- The shape `a@b.c` of the specification, the three parts being non-empty and made of
code units accepted by `ok`. -/
def EmailShape (ok : CodeUnit → Bool) (v : JSString) : Prop :=
  ∃ a b c, v = a ++ 64 :: (b ++ 46 :: c) ∧ a ≠ [] ∧ b ≠ [] ∧ c ≠ [] ∧
    (∀ x ∈ a, ok x = true) ∧ (∀ x ∈ b, ok x = true) ∧ (∀ x ∈ c, ok x = true)

/-- A required control of the given type and value, with its error element. -/
def inputField (type value : JSString) : Field :=
  { type := type, name := [], value := value, required := true, defaultValue := [],
    errorClass := false, errorElement := some [] }

end Contact

/-! ## ReviewManager (`js/web-components/review/review-component.js`) -/

namespace ReviewManager

/-- The feedback element `.form-feedback`. -/
structure Feedback where
  textContent : JSString
  className : JSString

/-- What the element `.reviews-list` shows: the loading paragraph, the error placeholder of
`loadReviews`, or the outcome of `displayReviews(reviews)`. -/
inductive ListView where
  | loading
  | loadError
  | displayed (reviews : List JSValue)

/-- The mutable state the component works on. -/
structure State where
  /-- The controls of `.review-form`, in document order. -/
  form : List Field
  /-- The element `.form-feedback`. -/
  feedback : Feedback
  /-- The `textContent` of `.char-count`. -/
  charCount : JSString
  /-- The element `.reviews-list`. -/
  reviewsList : ListView
  /-- The contents of `localStorage`. -/
  storage : LocalStorage

/-- The `if`/`else if` chain of `validateField`: `isValid` and `errorMsg`. -/
def check (field : Field) : Bool × JSString :=
  if (trim field.value).isEmpty then
    (false, lit "Ce champ est obligatoire")
  else if field.name = lit "nom" ∨ field.name = lit "prenom" then
    if (trim field.value).length < 2 then (false, lit "Minimum 2 caractères requis")
    else (true, [])
  else if field.name = lit "ville" then
    if (trim field.value).length < 2 then (false, lit "Veuillez entrer une ville valide")
    else (true, [])
  else if field.name = lit "avis" then
    if (trim field.value).length < 10 then
      (false, lit "L\x27avis doit contenir au moins 10 caractères")
    else (true, [])
  else (true, [])

/-- `validateField(field)`: the returned `isValid` and the field as displayed afterwards. -/
def validateField (field : Field) : Bool × Field :=
  let r := check field
  if !r.1 then (r.1, field.markInvalid r.2) else (r.1, field.markValid)

/-- The `forEach` of `validateForm`, `isValid` being the value of the local variable so far:
every control carrying `required` is validated in turn. -/
def validateFormLoop (isValid : Bool) : List Field → Bool × List Field
  | [] => (isValid, [])
  | field :: rest =>
    if field.required then
      let r := validateField field
      let out := validateFormLoop (if !r.1 then false else isValid) rest
      (out.1, r.2 :: out.2)
    else
      let out := validateFormLoop isValid rest
      (out.1, field :: out.2)

/-- `validateForm()`: the returned `isValid` and the form as displayed afterwards. -/
def validateForm (form : List Field) : Bool × List Field :=
  validateFormLoop true form

/-- `showFeedback(message, type)`. The timer that later resets `className` to
`form-feedback` is not modelled. -/
def showFeedback (message type : JSString) : Feedback :=
  { textContent := message, className := lit "form-feedback " ++ type }

/-- `new FormData(form).get(name)`: the value of the first control of that name, or `null`. -/
def formDataGet (form : List Field) (name : JSString) : JSValue :=
  match form.find? (fun f => f.name = name) with
  | some f => .str f.value
  | none => .null

/-- The object `reviewData` built by `handleFormSubmit`; `date` is the value of
`new Date().toLocaleDateString(...)`. -/
def reviewData (form : List Field) (date : JSString) : JSValue :=
  .obj [(lit "nom", formDataGet form (lit "nom")),
        (lit "prenom", formDataGet form (lit "prenom")),
        (lit "ville", formDataGet form (lit "ville")),
        (lit "avis", formDataGet form (lit "avis")),
        (lit "note", formDataGet form (lit "note")),
        (lit "date", .str date)]

/-- `handleFormSubmit()`: the state it leaves and, when it calls `sendReview`, the argument
of that call. -/
def handleFormSubmit (st : State) (date : JSString) : State × Option JSValue :=
  let r := validateForm st.form
  if !r.1 then
    ({ st with form := r.2,
               feedback := showFeedback (lit "Veuillez corriger les erreurs du formulaire.")
                 (lit "error") }, none)
  else
    ({ st with form := r.2,
               feedback := showFeedback (lit "Envoi de votre avis...") (lit "loading") },
      some (reviewData r.2 date))

/-- `formElement.reset()`. -/
def resetForm (form : List Field) : List Field :=
  form.map (fun f => { f with value := f.defaultValue })

/-- The `catch` branch of `sendReview`. -/
def sendFailed (st : State) : State :=
  { st with feedback := showFeedback (lit "Erreur lors de l\x27envoi. Veuillez réessayer.")
              (lit "error") }

/-- `sendReview(reviewData)`, run on the state found once the simulated delay has elapsed,
up to and including the synchronous part of the final `loadReviews()` call. `writeOk` tells
whether `localStorage.setItem` accepts the write (it throws when the quota is exceeded).
`unshift` exists on arrays only: calling it on any other value throws. -/
def sendReview (st : State) (reviewData : JSValue) (writeOk : Bool) : State :=
  match jsonParse (st.storage.getItem (lit "reviews-new")) with
  | none => sendFailed st
  | some parsed =>
    match orEmptyArray parsed with
    | .arr newReviews =>
      if writeOk then
        { form := resetForm st.form,
          feedback := showFeedback (lit "Merci ! Votre avis a été ajouté avec succès.")
            (lit "success"),
          charCount := lit "0/500",
          reviewsList := .loading,
          storage := st.storage.setItem (lit "reviews-new")
            (jsonStringify (.arr (reviewData :: newReviews))) }
      else sendFailed st
    | _ => sendFailed st

/-- The array `allReviews` computed in the timer callback of `loadReviews`; `none` when the
`try` block throws (a stored text that does not parse, a value that cannot be spread). -/
def allReviews (storage : LocalStorage) : Option (List JSValue) :=
  match jsonParse (storage.getItem (lit "reviews-json")) with
  | none => none
  | some parsedJson =>
    match jsonParse (storage.getItem (lit "reviews-new")) with
    | none => none
    | some parsedNew =>
      match spread (orEmptyArray parsedNew), spread (orEmptyArray parsedJson) with
      | some newReviews, some jsonReviews => some (newReviews ++ jsonReviews)
      | _, _ => none

/-- The synchronous part of `loadReviews()`: `showLoadingState()`. -/
def loadReviews (st : State) : State :=
  { st with reviewsList := .loading }

/-- The timer callback of `loadReviews()`, run on the state found when the timer fires. -/
def loadReviewsCallback (st : State) : State :=
  match allReviews st.storage with
  | some reviews => { st with reviewsList := .displayed reviews }
  | none => { st with reviewsList := .loadError }

/-- A required control of the rendered form, with the `.error-message` element that follows
it in its `.form-group`. -/
def control (type name value : JSString) : Field :=
  { type := type, name := name, value := value, required := true, defaultValue := [],
    errorClass := false, errorElement := some [] }

/-- The controls of the form built by `render()`, in document order, holding the given
values. -/
def renderedForm (nom prenom ville note avis : JSString) : List Field :=
  [control (lit "text") (lit "nom") nom, control (lit "text") (lit "prenom") prenom,
   control (lit "text") (lit "ville") ville, control (lit "select-one") (lit "note") note,
   control (lit "textarea") (lit "avis") avis]

/-- The component once rendered, before any interaction, over the given storage. -/
def rendered (form : List Field) (storage : LocalStorage) : State :=
  { form := form, feedback := { textContent := [], className := lit "form-feedback" },
    charCount := lit "0/500", reviewsList := .loading, storage := storage }

end ReviewManager

/-! ## CarouselManager (`js/carousel.js`) -/

namespace CarouselManager

/-- The two numeric properties of a `CarouselManager`. `currentIndex` is a JavaScript number
that is either an integer or `NaN` (`none`); `totalSlides` is an array length. -/
structure State where
  currentIndex : Option Int
  totalSlides : Nat

/-- The remainder `a % n` of JavaScript on these numbers: the sign follows the dividend,
and the result is `NaN` when `a` is `NaN` or `n` is zero. -/
def jsRem (a : Option Int) (n : Nat) : Option Int :=
  match a with
  | none => none
  | some x => if n = 0 then none else some (x.tmod n)

/-- The state set up by the constructor for a container with `n` slides. -/
def init (n : Nat) : State :=
  { currentIndex := some 0, totalSlides := n }

/-- `previousSlide()`. -/
def previousSlide (c : State) : State :=
  { c with currentIndex :=
      jsRem (c.currentIndex.map (fun i => i - 1 + c.totalSlides)) c.totalSlides }

/-- `nextSlide()`. -/
def nextSlide (c : State) : State :=
  { c with currentIndex := jsRem (c.currentIndex.map (fun i => i + 1)) c.totalSlides }

/-- `goToSlide(index)`. -/
def goToSlide (index : Int) (c : State) : State :=
  { c with currentIndex := some index }

/-- A call made on the carousel. -/
inductive Call where
  | previousSlide
  | nextSlide
  | goToSlide (index : Int)

/-- The effect of one call. -/
def step (c : State) : Call → State
  | .previousSlide => previousSlide c
  | .nextSlide => nextSlide c
  | .goToSlide index => goToSlide index c

/-- The effect of a sequence of calls, leftmost first. -/
def run (c : State) (calls : List Call) : State :=
  calls.foldl step c

/-- The index held by the state is an integer within `0 .. totalSlides - 1`. -/
def InRange (c : State) : Prop :=
  ∃ k : Int, c.currentIndex = some k ∧ 0 ≤ k ∧ k < (c.totalSlides : Int)

/-- The calls whose `goToSlide` argument, if any, designates a slide. -/
def Call.Valid (n : Nat) : Call → Prop
  | .goToSlide index => 0 ≤ index ∧ index < (n : Int)
  | _ => True

end CarouselManager

/-! ## Rendering of the reviews (`displayReviews`, `getStarRating`) -/

/-- The decimal numeral of a natural number, as `Number.prototype.toString` writes an
integer of moderate size. -/
def decimalNat (n : Nat) : JSString :=
  (Nat.toDigits 10 n).map Char.toNat

/-- `ToString` of an integer number (for integers written without exponent). -/
def decimal (n : Int) : JSString :=
  if n < 0 then 45 :: decimalNat n.natAbs else decimalNat n.natAbs

mutual
/-- `ToString(v)` for a value produced by `JSON.parse`. -/
def toStr : JSValue → JSString
  | .null => lit "null"
  | .bool b => if b then lit "true" else lit "false"
  | .num n => decimal n
  | .str s => s
  | .arr items => joinItems items
  | .obj _ => lit "[object Object]"
/-- `Array.prototype.join` with the separator `,`: a `null` element gives the empty
string. -/
def joinItems : List JSValue → JSString
  | [] => []
  | [.null] => []
  | [v] => toStr v
  | .null :: rest => 44 :: joinItems rest
  | v :: rest => toStr v ++ 44 :: joinItems rest
end

/-- `ToString` of the result of a property access, `none` being `undefined`. -/
def toStrOrUndefined : Option JSValue → JSString
  | none => lit "undefined"
  | some v => toStr v

/-- The value of a code unit as a digit in the given radix, if it is one. -/
def digitValue (radix : Nat) (c : CodeUnit) : Option Nat :=
  if 48 ≤ c ∧ c ≤ 57 then (if c - 48 < radix then some (c - 48) else none)
  else if 97 ≤ c ∧ c ≤ 122 then (if c - 87 < radix then some (c - 87) else none)
  else if 65 ≤ c ∧ c ≤ 90 then (if c - 55 < radix then some (c - 55) else none)
  else none

/-- The digits of the longest prefix made of digits of the given radix. -/
def leadingDigits (radix : Nat) : JSString → List Nat
  | [] => []
  | c :: cs =>
    match digitValue radix c with
    | some d => d :: leadingDigits radix cs
    | none => []

/-- The number written by a list of digits, most significant first. -/
def digitsValue (radix : Nat) (ds : List Nat) : Nat :=
  ds.foldl (fun acc d => acc * radix + d) 0

/-- `parseInt(string)` without radix argument, on the string form of its argument: leading
whitespace and a sign are skipped, a prefix `0x` or `0X` selects radix 16, and the longest
prefix of digits is read; `none` is `NaN`. -/
def parseInt (input : JSString) : Option Int :=
  let s := trimStart input
  let signed : Bool × JSString :=
    match s with
    | 45 :: rest => (true, rest)
    | 43 :: rest => (false, rest)
    | _ => (false, s)
  let based : Nat × JSString :=
    match signed.2 with
    | 48 :: 120 :: rest => (16, rest)
    | 48 :: 88 :: rest => (16, rest)
    | _ => (10, signed.2)
  let ds := leadingDigits based.1 based.2
  if ds.isEmpty then none
  else if signed.1 then some (-(digitsValue based.1 ds : Int))
  else some (digitsValue based.1 ds : Int)

/-- `s.repeat(count)` where `count` is an integer or `NaN` (`none`): `NaN` counts as zero
and a negative count raises a `RangeError` (`none`). -/
def jsRepeat (s : JSString) (count : Option Int) : Option JSString :=
  match count with
  | none => some []
  | some n => if n < 0 then none else some (List.replicate n.toNat s).flatten

/-- The property access `review[key]` for one of the keys read by `displayReviews`, on a
value produced by `JSON.parse`: outer `none` is the `TypeError` raised on `null`, inner
`none` is `undefined` (these keys are no property of arrays, strings, numbers or
booleans). -/
def getProp (review : JSValue) (key : JSString) : Option (Option JSValue) :=
  match review with
  | .null => none
  | .obj props => some ((props.find? (fun kv => kv.1 = key)).map (fun kv => kv.2))
  | _ => some none

namespace ReviewManager

/-- The star glyph of `getStarRating`, U+2B50. -/
def stars : JSString :=
  [0x2B50]

/-- `getStarRating(note)`: `stars.repeat(parseInt(note))`; `none` is the `RangeError` of
`repeat`. -/
def getStarRating (note : Option JSValue) : Option JSString :=
  jsRepeat stars (parseInt (toStrOrUndefined note))

/-- The call `this.escapeHtml(x)` on the result of a property access: only a string has a
method `replace`, any other argument raises a `TypeError` (`none`). -/
def escapeHtmlCall : Option JSValue → Option JSString
  | some (.str text) => some (escapeHtml text)
  | _ => none

/-- The text of the card template from the opening backquote to the first name. -/
def cardOpen : JSString :=
  lit "\n            <div class=\"review-card\">\n                <div class=\"review-header\">\n                    <div>\n                        <div class=\"review-author\">"

/-- The text of the card template between the two names. -/
def cardBetweenNames : JSString :=
  lit " "

/-- The text of the card template from the second name to the city. -/
def cardBeforeVille : JSString :=
  lit "</div>\n                        <div class=\"review-location\">📍 "

/-- The text of the card template from the city to the stars. -/
def cardBeforeRating : JSString :=
  lit "</div>\n                    </div>\n                    <div>\n                        <div class=\"review-rating\">"

/-- The text of the card template from the stars to the date. -/
def cardBeforeDate : JSString :=
  lit "</div>\n                        <div class=\"review-date\">"

/-- The text of the card template from the date to the text of the review. -/
def cardBeforeText : JSString :=
  lit "</div>\n                    </div>\n                </div>\n                <div class=\"review-text\">\""

/-- The text of the card template from the text of the review to the closing backquote. -/
def cardClose : JSString :=
  lit "\"</div>\n            </div>\n        "

/-- The template literal of `displayReviews` for one review; `none` when evaluating it
throws. -/
def card (review : JSValue) : Option JSString :=
  match getProp review (lit "prenom"), getProp review (lit "nom"),
    getProp review (lit "ville"), getProp review (lit "note"),
    getProp review (lit "date"), getProp review (lit "avis") with
  | some prenom, some nom, some ville, some note, some date, some avis =>
    match escapeHtmlCall prenom, escapeHtmlCall nom, escapeHtmlCall ville,
      getStarRating note, escapeHtmlCall avis with
    | some p, some n, some v, some rating, some a =>
      some (cardOpen ++ p ++ cardBetweenNames ++ n ++ cardBeforeVille ++ v ++
        cardBeforeRating ++ rating ++ cardBeforeDate ++ toStrOrUndefined date ++
        cardBeforeText ++ a ++ cardClose)
    | _, _, _, _, _ => none
  | _, _, _, _, _, _ => none

/-- The markup shown for an empty list. -/
def noReviewsHtml : JSString :=
  lit "<div class=\"no-reviews\">Aucun avis pour le moment. Soyez le premier à partager votre expérience !</div>"

/-- `displayReviews(reviews)`: the markup assigned to `reviewsListElement.innerHTML`, or
`none` when the method throws before the assignment. -/
def displayReviews (reviews : List JSValue) : Option JSString :=
  if reviews.isEmpty then some noReviewsHtml
  else (reviews.mapM card).map List.flatten

/-- The markup held by `reviewsListElement.innerHTML` in each case of `ListView`; an
exception raised by `displayReviews` is caught by `loadReviews`, which shows its error
placeholder. -/
def ListView.innerHTML : ListView → JSString
  | .loading => lit "<p class=\"loading\">Chargement des avis...</p>"
  | .loadError => lit "<div class=\"no-reviews\">Erreur lors du chargement des avis.</div>"
  | .displayed reviews =>
    (displayReviews reviews).getD
      (lit "<div class=\"no-reviews\">Erreur lors du chargement des avis.</div>")

/-- The six fields of a review, all of them strings. -/
structure ReviewFields where
  prenom : JSString
  nom : JSString
  ville : JSString
  note : JSString
  date : JSString
  avis : JSString

/-- The value `review` is an object whose six fields are the given strings. -/
def HasFields (review : JSValue) (f : ReviewFields) : Prop :=
  getProp review (lit "prenom") = some (some (.str f.prenom)) ∧
  getProp review (lit "nom") = some (some (.str f.nom)) ∧
  getProp review (lit "ville") = some (some (.str f.ville)) ∧
  getProp review (lit "note") = some (some (.str f.note)) ∧
  getProp review (lit "date") = some (some (.str f.date)) ∧
  getProp review (lit "avis") = some (some (.str f.avis))

/-- The card of a review with string fields, as the specification describes it: the fixed
markup of the template around the escaped names, city and text, the stars and the date. -/
def cardText (f : ReviewFields) : JSString :=
  cardOpen ++ escapeHtml f.prenom ++ cardBetweenNames ++ escapeHtml f.nom ++
    cardBeforeVille ++ escapeHtml f.ville ++ cardBeforeRating ++
    (getStarRating (some (.str f.note))).getD [] ++ cardBeforeDate ++ f.date ++
    cardBeforeText ++ escapeHtml f.avis ++ cardClose

/-- The same review with the four escaped fields emptied. -/
def ReviewFields.blank (f : ReviewFields) : ReviewFields :=
  { f with prenom := [], nom := [], ville := [], avis := [] }

end ReviewManager

/-! ## Loading the baseline reviews (`initializeAndLoadReviews`) -/

namespace ReviewManager

/-- How `fetch(this.dataFile)` ends: a network error, or a response with its `ok` flag
(status 200 to 299) and the value its body parses to (`none` when `response.json()`
rejects). -/
inductive FetchOutcome where
  | networkError
  | response (ok : Bool) (body : Option JSValue)

/-- `localStorage.setItem('reviews-json', JSON.stringify(v))`; `none` when the storage
refuses the text and `setItem` throws. -/
def storeBaseline (st : State) (v : JSValue) (accepts : StoredText → Bool) : Option State :=
  if accepts (jsonStringify v) then
    some { st with storage := st.storage.setItem (lit "reviews-json") (jsonStringify v) }
  else none

/-- The `try` block of `initializeAndLoadReviews`; `none` when it throws. -/
def tryFetch (st : State) (fetched : FetchOutcome) (accepts : StoredText → Bool) :
    Option State :=
  match fetched with
  | .response true (some jsonReviews) => storeBaseline st jsonReviews accepts
  | _ => none

/-- `initializeAndLoadReviews()`, up to and including the synchronous part of the final
`loadReviews()` call. `avisData` is `window.AVIS_DATA` (`none` when undefined) and `accepts`
tells which texts the storage accepts. When `setItem` throws inside the `catch` block the
method ends there, before `loadReviews()`. -/
def initializeAndLoadReviews (st : State) (fetched : FetchOutcome)
    (avisData : Option JSValue) (accepts : StoredText → Bool) : State :=
  match tryFetch st fetched accepts with
  | some st1 => loadReviews st1
  | none =>
    match avisData with
    | some data =>
      match storeBaseline st data accepts with
      | some st1 => loadReviews st1
      | none => st
    | none => loadReviews st

/-- The fetch failed: a network error or a status outside 200 to 299. -/
def FetchOutcome.Failed (fetched : FetchOutcome) : Prop :=
  fetched = .networkError ∨ ∃ body, fetched = .response false body

/-- The `try` block cannot complete: the fetch failed, or it succeeded with an ok status but
its body does not parse, or the storage refuses the write of the fetched collection. -/
def FetchOutcome.Unusable (fetched : FetchOutcome) (accepts : StoredText → Bool) : Prop :=
  fetched.Failed ∨ fetched = .response true none ∨
    ∃ v, fetched = .response true (some v) ∧ accepts (.json v) = false

end ReviewManager

/-! ## HeaderComponent (`js/web-components/header/header-component.js`) -/

namespace HeaderComponent

/-- The three pieces of state written by `setupMenuToggle`. -/
structure State where
  /-- The attribute `aria-expanded` of `.menu-toggle`. -/
  ariaExpanded : JSString
  /-- Is `is-open` in the class list of `.nav-menu`? -/
  navOpen : Bool
  /-- Is `is-active` in the class list of `.menu-toggle`? -/
  toggleActive : Bool

/-- The state written by `render()`. -/
def initial : State :=
  { ariaExpanded := lit "false", navOpen := false, toggleActive := false }

/-- The string form of a boolean, as `setAttribute` stores it. -/
def boolText (b : Bool) : JSString :=
  if b then lit "true" else lit "false"

/-- The click handler of the burger button. -/
def toggleClick (s : State) : State :=
  let isExpanded := decide (s.ariaExpanded = lit "true")
  { ariaExpanded := boolText (!isExpanded), navOpen := !s.navOpen,
    toggleActive := !s.toggleActive }

/-- The click handler of a navigation link. -/
def linkClick (_s : State) : State :=
  { ariaExpanded := lit "false", navOpen := false, toggleActive := false }

/-- A click on the header. -/
inductive Click where
  | toggle
  | link

/-- The effect of one click. -/
def step (s : State) : Click → State
  | .toggle => toggleClick s
  | .link => linkClick s

/-- The effect of a sequence of clicks, leftmost first. -/
def run (s : State) (clicks : List Click) : State :=
  clicks.foldl step s

/-- The three flags agree. -/
def Agree (s : State) : Prop :=
  (s.ariaExpanded = lit "true" ↔ s.navOpen = true) ∧ (s.navOpen = true ↔ s.toggleActive = true)

end HeaderComponent

/-! ## Install prompt (`js/pwa-install.js`) -/

namespace PwaInstall

/-- The variable `deferredPrompt`, the install button and the trace of what has been done.
Deferred events are told apart by a number. -/
structure State where
  /-- The variable `deferredPrompt`; `none` is `null`. -/
  deferredPrompt : Option Nat
  /-- The value of `installButton.style.display`; `none` when the page has no such button. -/
  installButton : Option JSString
  /-- The click handlers suspended at `await deferredPrompt.userChoice`, each with the event
  whose choice it awaits. -/
  awaiting : List Nat
  /-- The events on which `prompt()` has been called, oldest first. -/
  prompted : List Nat

/-- What happens to the page. -/
inductive Event where
  | beforeInstallPrompt (event : Nat)
  | click
  | userChoiceResolved (event : Nat)
  | appInstalled

/-- The state when the script has run, on a page with the button. -/
def initial : State :=
  { deferredPrompt := none, installButton := some [], awaiting := [], prompted := [] }

/-- The assignment `installButton.style.display = value` under `if (installButton)`. -/
def setDisplay (s : State) (value : JSString) : State :=
  { s with installButton := s.installButton.map (fun _ => value) }

/-- The part of the click handler that follows the `await`. -/
def resume (s : State) : State :=
  setDisplay { s with deferredPrompt := none } (lit "none")

/-- The reaction to one event. A click runs the handler up to its `await`; the resolution of
a `userChoice` lets every handler that awaits it run to its end. -/
def step (s : State) : Event → State
  | .beforeInstallPrompt event =>
    setDisplay { s with deferredPrompt := some event } (lit "inline-block")
  | .click =>
    match s.installButton, s.deferredPrompt with
    | some _, some event =>
      { s with prompted := s.prompted ++ [event], awaiting := s.awaiting ++ [event] }
    | _, _ => s
  | .userChoiceResolved event =>
    (s.awaiting.filter (fun e => e = event)).foldl (fun acc _ => resume acc)
      { s with awaiting := s.awaiting.filter (fun e => e ≠ event) }
  | .appInstalled => setDisplay s (lit "none")

/-- The reaction to a sequence of events, leftmost first. -/
def run (s : State) (events : List Event) : State :=
  events.foldl step s

end PwaInstall

/-! ## Service worker (`service-worker.js`) -/

/-- `s.includes(sub)`. -/
def includes (s sub : JSString) : Bool :=
  s.tails.any (fun t => sub.isPrefixOf t)

/-- `s.endsWith(sub)`. -/
def endsWith (s sub : JSString) : Bool :=
  sub.isSuffixOf s

namespace ServiceWorker

/-- The part of a `Request` the worker reads. -/
structure Request where
  method : JSString
  url : JSString

/-- The part of a `Response` the worker reads, with its body. -/
structure Response where
  status : Nat
  type : JSString
  body : JSString
  /-- Does the header `Vary` of the response hold `*`? -/
  varyStar : Bool := false

/-- The responses that `cache.put` and `cache.addAll` refuse with a `TypeError`: a partial
response (status 206) and a response whose header `Vary` holds `*`. -/
def Response.refused (response : Response) : Bool :=
  response.status == 206 || response.varyStar

/-- A cache: its entries, keyed by the URL of the `GET` request they answer. -/
abbrev Cache := List (JSString × Response)

/-- The `CacheStorage` object `caches`: the named caches, in creation order. -/
abbrev CacheStorage := List (JSString × Cache)

/-- The constant `CACHE_NAME`. -/
def CACHE_NAME : JSString :=
  lit "mhs-v1"

/-- The constant `urlsToCache`. -/
def urlsToCache : List JSString :=
  [lit "/", lit "/index.html", lit "/prestation.html", lit "/contact.html", lit "/avis.html",
   lit "/css/style.css", lit "/css/carousel.css", lit "/css/prestation.css",
   lit "/js/script.js", lit "/js/carousel.js", lit "/js/avis-data.js",
   lit "/js/web-components/header/header-component.js",
   lit "/js/web-components/header/header-component.css",
   lit "/js/web-components/footer/footer-component.js",
   lit "/js/web-components/footer/footer-component.css",
   lit "/js/web-components/review/review-component.js",
   lit "/js/web-components/review/review-component.css",
   lit "/img/logo.svg"]

/-- What surrounds the worker: the origin it is served from, against which a URL such as
`/index.html` is resolved, and the network, which answers a request or fails (`none`). -/
structure Env where
  origin : JSString
  network : Request → Option Response

/-- The `GET` request made for a URL of the worker's own origin given by its path. -/
def Env.request (env : Env) (path : JSString) : Request :=
  { method := lit "GET", url := env.origin ++ path }

/-- `cache.match(request)`: the entry stored for the URL of a `GET` request. -/
def cacheMatch (cache : Cache) (request : Request) : Option Response :=
  if request.method = lit "GET" then
    (cache.find? (fun entry => entry.1 = request.url)).map (fun entry => entry.2)
  else none

/-- `caches.match(request)`: the first match among the caches, in creation order; `none` is
`undefined`. -/
def cachesMatch (caches : CacheStorage) (request : Request) : Option Response :=
  caches.findSome? (fun named => cacheMatch named.2 request)

/-- `caches.keys()`. -/
def cachesKeys (caches : CacheStorage) : List JSString :=
  caches.map (fun named => named.1)

/-- `caches.delete(name)`. -/
def cachesDelete (caches : CacheStorage) (name : JSString) : CacheStorage :=
  caches.filter (fun named => named.1 ≠ name)

/-- `caches.open(name)`: the cache is created, empty, when there is none of that name. -/
def cachesOpen (caches : CacheStorage) (name : JSString) : CacheStorage :=
  if name ∈ cachesKeys caches then caches else caches ++ [(name, [])]

/-- `cache.put(request, response)`: the entry replaces any entry for the same URL. -/
def cachePut (cache : Cache) (url : JSString) (response : Response) : Cache :=
  cache.filter (fun entry => entry.1 ≠ url) ++ [(url, response)]

/-- `caches.open(name).then(cache => cache.put(request, response))`: the cache is opened,
and the entry is stored unless `put` refuses the response. -/
def cachesPut (caches : CacheStorage) (name url : JSString) (response : Response) :
    CacheStorage :=
  if response.refused then cachesOpen caches name
  else
    (cachesOpen caches name).map
      (fun named => if named.1 = name then (named.1, cachePut named.2 url response) else named)

/-! ### The `activate` listener -/

/-- The names for which the `activate` listener calls `caches.delete`, `current` being the
value of `CACHE_NAME`. -/
def deletionsFor (current : JSString) (cacheNames : List JSString) : List JSString :=
  cacheNames.filterMap (fun cacheName => if cacheName ≠ current then some cacheName else none)

/-- The caches left once the deletions requested by the `activate` listener are done. -/
def activateFor (current : JSString) (caches : CacheStorage) : CacheStorage :=
  (deletionsFor current (cachesKeys caches)).foldl cachesDelete caches

/-- The `activate` listener of the worker. -/
def activate (caches : CacheStorage) : CacheStorage :=
  activateFor CACHE_NAME caches

/-! ### The `install` listener -/

/-- A settled promise. -/
inductive Promise (α : Type) where
  | resolved (value : α)
  | rejected (error : JSString)

/-- `p.then(f)`. -/
def Promise.andThen {α β : Type} (p : Promise α) (f : α → Promise β) : Promise β :=
  match p with
  | .resolved value => f value
  | .rejected error => .rejected error

/-- `p.catch(f)` for a handler that returns a plain value. -/
def Promise.orCatch {α : Type} (p : Promise α) (f : JSString → α) : Promise α :=
  match p with
  | .resolved value => .resolved value
  | .rejected error => .resolved (f error)

/-- Is the promise rejected? -/
def Promise.isRejected {α : Type} : Promise α → Bool
  | .resolved _ => false
  | .rejected _ => true

/-- The response fetched for one URL by `cache.addAll`, when it is usable: the fetch must
succeed with a status from 200 to 299 other than 206, and the header `Vary` of the response
must not hold `*`. -/
def fetchForCache (env : Env) (path : JSString) : Option Response :=
  match env.network (env.request path) with
  | some response =>
    if 200 ≤ response.status ∧ response.status ≤ 299 ∧ response.refused = false then
      some response
    else none
  | none => none

/-- `cache.addAll(urls)` on the cache of the given name: all the responses are fetched
first; if one is missing the promise rejects with a `TypeError` and nothing is stored,
otherwise every response is stored. -/
def addAll (env : Env) (caches : CacheStorage) (name : JSString) (urls : List JSString) :
    Promise Unit × CacheStorage :=
  match urls.mapM (fetchForCache env) with
  | some responses =>
    (.resolved (),
      (urls.zip responses).foldl
        (fun acc entry => cachesPut acc name (env.origin ++ entry.1) entry.2) caches)
  | none => (.rejected (lit "TypeError"), caches)

/-- The `install` listener: the promise handed to `event.waitUntil` and the caches it
leaves. The handler given to `catch` logs the error and returns `undefined`. -/
def install (env : Env) (caches : CacheStorage) : Promise Unit × CacheStorage :=
  let opened := cachesOpen caches CACHE_NAME
  let populated := addAll env opened CACHE_NAME urlsToCache
  (((Promise.resolved ()).andThen (fun _ => populated.1)).orCatch (fun _ => ()), populated.2)

/-! ### The `fetch` listener -/

/-- The three ways the `fetch` listener treats a request. -/
inductive Policy where
  | notHandled
  | cacheFirst
  | networkFirst
  deriving DecidableEq

/-- The condition under which a `GET` request is served cache first. -/
def isStaticAsset (url : JSString) : Bool :=
  includes url (lit "/css/") || includes url (lit "/js/") || includes url (lit "/img/") ||
    includes url (lit "/video/") || endsWith url (lit ".html")

/-- The condition of the specification: the URL contains `/css/`, `/js/`, `/img/` or
`/video/`, or ends with `.html`. -/
def IsStaticUrl (url : JSString) : Prop :=
  lit "/css/" <:+: url ∨ lit "/js/" <:+: url ∨ lit "/img/" <:+: url ∨ lit "/video/" <:+: url ∨
    lit ".html" <:+ url

/-- The two tests of the `fetch` listener. -/
def route (request : Request) : Policy :=
  if request.method ≠ lit "GET" then .notHandled
  else if isStaticAsset request.url then .cacheFirst
  else .networkFirst

/-- What the `fetch` listener did for one request. -/
structure Handled where
  /-- The value the promise given to `event.respondWith` resolves to, `some none` being
  `undefined`; `none` when `respondWith` is not called. -/
  respondWith : Option (Option Response)
  /-- The requests sent to the network with `fetch`. -/
  fetches : List Request
  /-- The calls of `cache.put`: name of the cache, URL, response. -/
  puts : List (JSString × JSString × Response)
  /-- The caches afterwards. -/
  caches : CacheStorage

/-- The cache-first branch. -/
def cacheFirst (env : Env) (caches : CacheStorage) (request : Request) : Handled :=
  match cachesMatch caches request with
  | some response =>
    { respondWith := some (some response), fetches := [], puts := [], caches := caches }
  | none =>
    match env.network request with
    | some response =>
      if response.status ≠ 200 ∨ response.type ≠ lit "basic" then
        { respondWith := some (some response), fetches := [request], puts := [],
          caches := caches }
      else
        { respondWith := some (some response), fetches := [request],
          puts := [(CACHE_NAME, request.url, response)],
          caches := cachesPut caches CACHE_NAME request.url response }
    | none =>
      { respondWith := some (cachesMatch caches (env.request (lit "/index.html"))),
        fetches := [request], puts := [], caches := caches }

/-- The network-first branch. -/
def networkFirst (env : Env) (caches : CacheStorage) (request : Request) : Handled :=
  match env.network request with
  | some response =>
    if response.status ≠ 200 then
      { respondWith := some (some response), fetches := [request], puts := [],
        caches := caches }
    else
      { respondWith := some (some response), fetches := [request],
        puts := [(CACHE_NAME, request.url, response)],
        caches := cachesPut caches CACHE_NAME request.url response }
  | none =>
    { respondWith := some (cachesMatch caches request), fetches := [request], puts := [],
      caches := caches }

/-- The `fetch` listener. -/
def onFetch (env : Env) (caches : CacheStorage) (request : Request) : Handled :=
  match route request with
  | .notHandled => { respondWith := none, fetches := [], puts := [], caches := caches }
  | .cacheFirst => cacheFirst env caches request
  | .networkFirst => networkFirst env caches request

end ServiceWorker

/-! ## Properties of the carousel -/

namespace CarouselManager

theorem jsRem_of_nonneg (x : Int) (n : Nat) (hn : 1 ≤ n) (hx : 0 ≤ x) :
    jsRem (some x) n = some (x % (n : Int)) := by
  have h0 : n ≠ 0 := by omega
  simp [jsRem, h0, Int.tmod_eq_emod hx (Int.ofNat_nonneg n)]

theorem nextSlide_in_range (i : Int) (n : Nat) (hn : 1 ≤ n) (hi : 0 ≤ i) :
    nextSlide { currentIndex := some i, totalSlides := n } =
      { currentIndex := some ((i + 1) % (n : Int)), totalSlides := n } := by
  simp [nextSlide, jsRem_of_nonneg (i + 1) n hn (by omega)]

theorem previousSlide_in_range (i : Int) (n : Nat) (hn : 1 ≤ n) (hi : 0 ≤ i) :
    previousSlide { currentIndex := some i, totalSlides := n } =
      { currentIndex := some ((i - 1 + (n : Int)) % (n : Int)), totalSlides := n } := by
  simp [previousSlide, jsRem_of_nonneg (i - 1 + (n : Int)) n hn (by omega)]

theorem nextSlide_iterate (k : Nat) (i : Int) (n : Nat) (hn : 1 ≤ n) (hi : 0 ≤ i) :
    nextSlide^[k] { currentIndex := some i, totalSlides := n } =
      { currentIndex := some (if k = 0 then i else (i + (k : Int)) % (n : Int)),
        totalSlides := n } := by
  induction k generalizing i with
  | zero => simp
  | succ k ih =>
    have hpos : (0 : Int) < (n : Int) := by omega
    rw [Function.iterate_succ_apply, nextSlide_in_range i n hn hi,
      ih ((i + 1) % (n : Int)) (Int.emod_nonneg _ (by omega))]
    by_cases hk : k = 0
    · subst hk
      simp
    · simp only [hk, if_false, Nat.succ_ne_zero]
      congr 2
      rw [Int.emod_add_emod]
      congr 1
      push_cast
      ring

/-- C4: with `N ≥ 1` slides and a starting index `0 ≤ i < N`, `N` successive calls of
`nextSlide()` bring `currentIndex` back to `i`. -/
theorem nextSlide_cycle (n : Nat) (i : Int) (hn : 1 ≤ n) (hi : 0 ≤ i) (hlt : i < (n : Int)) :
    (nextSlide^[n] { currentIndex := some i, totalSlides := n }).currentIndex = some i := by
  have h0 : n ≠ 0 := by omega
  rw [nextSlide_iterate n i n hn hi]
  simp only [h0, if_false, Int.add_emod_self]
  rw [Int.emod_eq_of_lt hi hlt]

theorem nextSlide_cycle_witness :
    (nextSlide^[4] { currentIndex := some 2, totalSlides := 4 }).currentIndex = some 2 :=
  nextSlide_cycle 4 2 (by decide) (by decide) (by decide)

/-- C5: with `N ≥ 1` slides and an index `0 ≤ i < N`, `previousSlide()` followed by
`nextSlide()` leaves `currentIndex` equal to `i`, and so does `nextSlide()` followed by
`previousSlide()`. -/
theorem previous_next_inverse (n : Nat) (i : Int) (hn : 1 ≤ n) (hi : 0 ≤ i)
    (hlt : i < (n : Int)) :
    (nextSlide (previousSlide { currentIndex := some i, totalSlides := n })).currentIndex
        = some i ∧
    (previousSlide (nextSlide { currentIndex := some i, totalSlides := n })).currentIndex
        = some i := by
  have hpos : (0 : Int) < (n : Int) := by omega
  constructor
  · rw [previousSlide_in_range i n hn hi,
      nextSlide_in_range _ n hn (Int.emod_nonneg _ (by omega))]
    simp only [Option.some.injEq]
    rw [Int.emod_add_emod, show i - 1 + (n : Int) + 1 = i + n by ring, Int.add_emod_self,
      Int.emod_eq_of_lt hi hlt]
  · rw [nextSlide_in_range i n hn hi,
      previousSlide_in_range _ n hn (Int.emod_nonneg _ (by omega))]
    simp only [Option.some.injEq]
    rw [show (i + 1) % (n : Int) - 1 + (n : Int) = (i + 1) % (n : Int) + ((n : Int) - 1) by ring,
      Int.emod_add_emod, show i + 1 + ((n : Int) - 1) = i + n by ring, Int.add_emod_self,
      Int.emod_eq_of_lt hi hlt]

theorem previous_next_inverse_witness :
    (nextSlide (previousSlide { currentIndex := some 0, totalSlides := 3 })).currentIndex
        = some 0 ∧
    (previousSlide (nextSlide { currentIndex := some 0, totalSlides := 3 })).currentIndex
        = some 0 :=
  previous_next_inverse 3 0 (by decide) (by decide) (by decide)

theorem step_totalSlides (c : State) (call : Call) :
    (step c call).totalSlides = c.totalSlides := by
  cases call <;> rfl

theorem run_totalSlides (calls : List Call) (c : State) :
    (run c calls).totalSlides = c.totalSlides := by
  induction calls generalizing c with
  | nil => rfl
  | cons call rest ih =>
    show (run (step c call) rest).totalSlides = c.totalSlides
    rw [ih, step_totalSlides]

theorem step_inRange (c : State) (call : Call) (hn : 1 ≤ c.totalSlides) (hc : InRange c)
    (hv : call.Valid c.totalSlides) : InRange (step c call) := by
  obtain ⟨k, hk, h0, hlt⟩ := hc
  obtain ⟨ci, n⟩ := c
  simp only at hk hlt hn hv
  subst hk
  have hpos : (0 : Int) < (n : Int) := by omega
  cases call with
  | previousSlide =>
    refine ⟨(k - 1 + (n : Int)) % (n : Int), ?_, Int.emod_nonneg _ (by omega),
      Int.emod_lt_of_pos _ hpos⟩
    show (previousSlide _).currentIndex = _
    rw [previousSlide_in_range k n hn h0]
  | nextSlide =>
    refine ⟨(k + 1) % (n : Int), ?_, Int.emod_nonneg _ (by omega), Int.emod_lt_of_pos _ hpos⟩
    show (nextSlide _).currentIndex = _
    rw [nextSlide_in_range k n hn h0]
  | goToSlide index => exact ⟨index, rfl, hv.1, hv.2⟩

theorem run_inRange (calls : List Call) (c : State) (hn : 1 ≤ c.totalSlides) (hc : InRange c)
    (hv : ∀ call ∈ calls, call.Valid c.totalSlides) : InRange (run c calls) := by
  induction calls generalizing c with
  | nil => exact hc
  | cons call rest ih =>
    show InRange (run (step c call) rest)
    have hs := step_totalSlides c call
    apply ih
    · rw [hs]; exact hn
    · exact step_inRange c call hn hc (hv call (List.mem_cons_self _ _))
    · intro d hd
      rw [hs]
      exact hv d (List.mem_cons_of_mem _ hd)

/-- C6, as stated, fails: with three slides, `goToSlide(5)` leaves `currentIndex = 5`, which
is not below `totalSlides = 3`. -/
theorem carousel_invariant_counterexample :
    (run (init 3) [Call.goToSlide 5]).currentIndex = some 5 ∧
    (run (init 3) [Call.goToSlide 5]).totalSlides = 3 ∧
    ¬ InRange (run (init 3) [Call.goToSlide 5]) := by
  refine ⟨rfl, rfl, ?_⟩
  rintro ⟨k, hk, _, hlt⟩
  have h5 : k = 5 := by
    have : (some 5 : Option Int) = some k := hk
    exact (Option.some.inj this).symm
  subst h5
  exact absurd hlt (by decide)

/-- C6, amended: in every state reached from the initial state (`currentIndex = 0`,
`totalSlides = N ≥ 1`) by a sequence of `nextSlide()`, `previousSlide()` and `goToSlide(i)`
calls in which every `goToSlide` argument satisfies `0 ≤ i < N`, `currentIndex` is an integer
with `0 ≤ currentIndex < N`, and `totalSlides` is still `N`. -/
theorem carousel_invariant (n : Nat) (calls : List Call) (hn : 1 ≤ n)
    (hv : ∀ call ∈ calls, call.Valid n) :
    (∃ k : Int, (run (init n) calls).currentIndex = some k ∧ 0 ≤ k ∧ k < (n : Int)) ∧
    (run (init n) calls).totalSlides = n := by
  have ht : (run (init n) calls).totalSlides = n := run_totalSlides calls (init n)
  have hr : InRange (run (init n) calls) :=
    run_inRange calls (init n) hn ⟨0, rfl, le_refl _, by show (0 : Int) < (n : Int); omega⟩ hv
  obtain ⟨k, hk, h0, hlt⟩ := hr
  rw [ht] at hlt
  exact ⟨⟨k, hk, h0, hlt⟩, ht⟩

theorem carousel_invariant_witness :
    (∃ k : Int, (run (init 3) [Call.nextSlide, Call.goToSlide 2, Call.nextSlide,
        Call.previousSlide, Call.previousSlide]).currentIndex = some k ∧ 0 ≤ k ∧
        k < ((3 : Nat) : Int)) ∧
    (run (init 3) [Call.nextSlide, Call.goToSlide 2, Call.nextSlide,
        Call.previousSlide, Call.previousSlide]).totalSlides = 3 :=
  carousel_invariant 3 _ (by decide) (by
    intro call hc
    simp only [List.mem_cons, List.mem_singleton, List.not_mem_nil, or_false] at hc
    rcases hc with h | h | h | h | h <;> subst h <;> simp [Call.Valid])

end CarouselManager

/-! ## Properties of `escapeHtml` -/

theorem Regex.fullMatch_cls_singleton (p : CodeUnit → Bool) (c : CodeUnit) :
    (Regex.cls p).fullMatch [c] = p c := by
  simp only [Regex.fullMatch, Regex.deriv]
  cases p c <;> rfl

theorem escapeHtml_cons (c : CodeUnit) (cs : JSString) :
    escapeHtml (c :: cs) = escapeImage c ++ escapeHtml cs := by
  show (if htmlSpecialRegex.fullMatch [c] then _ else _) ++ escapeHtml cs = _
  congr 1
  rw [htmlSpecialRegex, Regex.fullMatch_cls_singleton]
  by_cases h1 : c = 38
  · subst h1; decide
  by_cases h2 : c = 60
  · subst h2; decide
  by_cases h3 : c = 62
  · subst h3; decide
  by_cases h4 : c = 34
  · subst h4; decide
  by_cases h5 : c = 39
  · subst h5; decide
  simp [escapeImage, h1, h2, h3, h4, h5]

theorem escapeHtml_eq_flatMap (s : JSString) : escapeHtml s = s.flatMap escapeImage := by
  induction s with
  | nil => rfl
  | cons c cs ih => rw [escapeHtml_cons, ih, List.flatMap_cons]

theorem escapeImage_cases (c : CodeUnit) :
    escapeImage c ∈ entities ∨
      (escapeImage c = [c] ∧ c ≠ 38 ∧ c ≠ 60 ∧ c ≠ 62 ∧ c ≠ 34 ∧ c ≠ 39) := by
  by_cases h1 : c = 38
  · subst h1; left; decide
  by_cases h2 : c = 60
  · subst h2; left; decide
  by_cases h3 : c = 62
  · subst h3; left; decide
  by_cases h4 : c = 34
  · subst h4; left; decide
  by_cases h5 : c = 39
  · subst h5; left; decide
  right
  simp [escapeImage, h1, h2, h3, h4, h5]

theorem entities_no_raw (e : JSString) (he : e ∈ entities) (c : CodeUnit) (hc : c ∈ e) :
    c ≠ 60 ∧ c ≠ 62 ∧ c ≠ 34 ∧ c ≠ 39 := by
  have key : ∀ e ∈ entities, ∀ c ∈ e, c ≠ 60 ∧ c ≠ 62 ∧ c ≠ 34 ∧ c ≠ 39 := by decide
  exact key e he c hc

theorem entities_amp_first (e : JSString) (he : e ∈ entities) (i : Nat)
    (hi : e[i]? = some 38) : i = 0 := by
  have key : ∀ e ∈ entities, ∀ i < 6, e[i]? = some 38 → i = 0 := by decide
  have hlen : ∀ e ∈ entities, e.length ≤ 6 := by decide
  by_cases h6 : i < 6
  · exact key e he i h6 hi
  · have := hlen e he
    rw [List.getElem?_eq_none (by omega)] at hi
    cases hi

theorem escapeHtml_no_raw (s : JSString) :
    ∀ c ∈ escapeHtml s, c ≠ 60 ∧ c ≠ 62 ∧ c ≠ 34 ∧ c ≠ 39 := by
  induction s with
  | nil => intro c hc; cases hc
  | cons d ds ih =>
    intro c hc
    rw [escapeHtml_cons, List.mem_append] at hc
    rcases hc with hc | hc
    · rcases escapeImage_cases d with he | ⟨he, _, h2, h3, h4, h5⟩
      · exact entities_no_raw _ he c hc
      · rw [he, List.mem_singleton] at hc
        subst hc
        exact ⟨h2, h3, h4, h5⟩
    · exact ih c hc

theorem escapeHtml_amp_starts_entity (s : JSString) :
    ∀ i, (escapeHtml s)[i]? = some 38 → ∃ e ∈ entities, e <+: (escapeHtml s).drop i := by
  induction s with
  | nil => intro i hi; simp [escapeHtml, replaceAll] at hi
  | cons d ds ih =>
    intro i hi
    rw [escapeHtml_cons] at hi ⊢
    by_cases hlt : i < (escapeImage d).length
    · rw [List.getElem?_append_left hlt] at hi
      rcases escapeImage_cases d with he | ⟨he, h1, _⟩
      · have h0 := entities_amp_first _ he i hi
        subst h0
        exact ⟨escapeImage d, he, by simp⟩
      · rw [he] at hi hlt
        have h0 : i = 0 := by simpa using hlt
        subst h0
        simp at hi
        exact absurd hi h1
    · have hle : (escapeImage d).length ≤ i := by omega
      rw [List.getElem?_append_right hle] at hi
      obtain ⟨e, he, hpre⟩ := ih _ hi
      refine ⟨e, he, ?_⟩
      rw [List.drop_append_eq_append_drop, List.drop_of_length_le hle, List.nil_append]
      exact hpre

/-- C1: `escapeHtml(s)` is the in-order concatenation of the images of the characters of `s`,
where `&`, `<`, `>`, the double quote and the apostrophe go to `&amp;`, `&lt;`, `&gt;`,
`&quot;`, `&#039;` and any other character to itself; the output holds none of the raw
characters `<`, `>`, double quote, apostrophe; every `&` in it starts one of the five
entities; and the five characters in a row give the five entities in the same order. -/
theorem escapeHtml_exact (s : JSString) :
    escapeHtml s = s.flatMap escapeImage ∧
    (∀ c ∈ escapeHtml s, c ≠ 60 ∧ c ≠ 62 ∧ c ≠ 34 ∧ c ≠ 39) ∧
    (∀ i, (escapeHtml s)[i]? = some 38 → ∃ e ∈ entities, e <+: (escapeHtml s).drop i) ∧
    escapeHtml (lit "&<>\"\x27") = lit "&amp;&lt;&gt;&quot;&#039;" :=
  ⟨escapeHtml_eq_flatMap s, escapeHtml_no_raw s, escapeHtml_amp_starts_entity s, by decide⟩

/-! ## The derivative matcher -/

namespace Regex

theorem fullMatch_fail (w : JSString) : fail.fullMatch w = false := by
  induction w with
  | nil => rfl
  | cons c cs ih => exact ih

theorem fullMatch_eps (w : JSString) : eps.fullMatch w = true ↔ w = [] := by
  cases w with
  | nil => simp [fullMatch, nullable]
  | cons c cs => simp [fullMatch, deriv, fullMatch_fail]

theorem fullMatch_cls (p : CodeUnit → Bool) (w : JSString) :
    (cls p).fullMatch w = true ↔ ∃ c, w = [c] ∧ p c = true := by
  cases w with
  | nil => simp [fullMatch, nullable]
  | cons c cs =>
    simp only [fullMatch, deriv]
    by_cases hp : p c = true
    · simp only [hp, if_true, fullMatch_eps]
      constructor
      · intro h
        exact ⟨c, by rw [h], hp⟩
      · rintro ⟨d, h, _⟩
        exact (List.cons.inj h).2
    · have hp' : p c = false := by simpa using hp
      simp only [hp', Bool.false_eq_true, if_false, fullMatch_fail]
      constructor
      · intro h
        cases h
      · rintro ⟨d, h, hd⟩
        rw [(List.cons.inj h).1] at hp
        exact absurd hd hp

theorem fullMatch_alt (r s : Regex) (w : JSString) :
    (alt r s).fullMatch w = (r.fullMatch w || s.fullMatch w) := by
  induction w generalizing r s with
  | nil => rfl
  | cons c cs ih => simp only [fullMatch, deriv, ih]

theorem fullMatch_seq (r s : Regex) (w : JSString) :
    (seq r s).fullMatch w = true ↔
      ∃ u v, w = u ++ v ∧ r.fullMatch u = true ∧ s.fullMatch v = true := by
  induction w generalizing r with
  | nil =>
    simp only [fullMatch, nullable, Bool.and_eq_true]
    constructor
    · rintro ⟨hr, hs⟩
      exact ⟨[], [], rfl, hr, hs⟩
    · rintro ⟨u, v, huv, hr, hs⟩
      obtain ⟨hu, hv⟩ := List.append_eq_nil.mp huv.symm
      subst hu hv
      exact ⟨hr, hs⟩
  | cons c cs ih =>
    have step : (seq (r.deriv c) s).fullMatch cs = true ↔
        ∃ u v, c :: cs = (c :: u) ++ v ∧ r.fullMatch (c :: u) = true ∧ s.fullMatch v = true := by
      rw [ih]
      constructor
      · rintro ⟨u, v, h, hr, hs⟩
        exact ⟨u, v, by rw [h]; rfl, hr, hs⟩
      · rintro ⟨u, v, h, hr, hs⟩
        exact ⟨u, v, by simpa using h, hr, hs⟩
    by_cases hn : r.nullable = true
    · have hd : (seq r s).fullMatch (c :: cs)
          = ((seq (r.deriv c) s).fullMatch cs || (s.deriv c).fullMatch cs) := by
        simp only [fullMatch, deriv, hn, if_true, fullMatch_alt]
      rw [hd, Bool.or_eq_true, step]
      constructor
      · rintro (⟨u, v, h, hr, hs⟩ | hs)
        · exact ⟨c :: u, v, h, hr, hs⟩
        · exact ⟨[], c :: cs, rfl, hn, hs⟩
      · rintro ⟨u, v, h, hr, hs⟩
        cases u with
        | nil =>
          right
          rw [List.nil_append] at h
          subst h
          exact hs
        | cons d u =>
          left
          have hcd : c = d := by
            have := List.head_eq_of_cons_eq h
            exact this
          subst hcd
          exact ⟨u, v, h, hr, hs⟩
    · have hd : (seq r s).fullMatch (c :: cs) = (seq (r.deriv c) s).fullMatch cs := by
        simp only [fullMatch, deriv, hn]
        rfl
      rw [hd, step]
      constructor
      · rintro ⟨u, v, h, hr, hs⟩
        exact ⟨c :: u, v, h, hr, hs⟩
      · rintro ⟨u, v, h, hr, hs⟩
        cases u with
        | nil => exact absurd hr hn
        | cons d u =>
          have hcd : c = d := List.head_eq_of_cons_eq h
          subst hcd
          exact ⟨u, v, h, hr, hs⟩

theorem fullMatch_star_cls (p : CodeUnit → Bool) (w : JSString) :
    (star (cls p)).fullMatch w = true ↔ ∀ c ∈ w, p c = true := by
  induction w with
  | nil => simp [fullMatch, nullable]
  | cons c cs ih =>
    have hd : (star (cls p)).fullMatch (c :: cs)
        = (seq ((cls p).deriv c) (star (cls p))).fullMatch cs := rfl
    rw [hd, fullMatch_seq]
    constructor
    · rintro ⟨u, v, h, hu, hv⟩
      by_cases hp : p c = true
      · simp only [deriv, hp, if_true, fullMatch_eps] at hu
        subst hu
        rw [List.nil_append] at h
        subst h
        intro d hdm
        rcases List.mem_cons.mp hdm with h1 | h1
        · rw [h1]; exact hp
        · exact ih.mp hv d h1
      · simp [deriv, hp, fullMatch_fail] at hu
    · intro hall
      have hp : p c = true := hall c (List.mem_cons_self _ _)
      refine ⟨[], cs, rfl, ?_, ih.mpr (fun d hdm => hall d (List.mem_cons_of_mem _ hdm))⟩
      simp [deriv, hp, fullMatch, nullable]

theorem fullMatch_atLeast_cls (n : Nat) (p : CodeUnit → Bool) (w : JSString) :
    (atLeast n (cls p)).fullMatch w = true ↔ n ≤ w.length ∧ ∀ c ∈ w, p c = true := by
  induction n generalizing w with
  | zero => simp [atLeast, fullMatch_star_cls]
  | succ n ih =>
    simp only [atLeast, fullMatch_seq, fullMatch_cls]
    constructor
    · rintro ⟨u, v, h, ⟨c, hu, hp⟩, hv⟩
      obtain ⟨hlen, hall⟩ := (ih v).mp hv
      subst hu h
      refine ⟨by simp only [List.singleton_append, List.length_cons]; omega, ?_⟩
      intro d hdm
      rcases List.mem_cons.mp hdm with h1 | h1
      · rw [h1]; exact hp
      · exact hall d h1
    · rintro ⟨hlen, hall⟩
      cases w with
      | nil => simp at hlen
      | cons c cs =>
        refine ⟨[c], cs, rfl, ⟨c, rfl, hall c (List.mem_cons_self _ _)⟩, (ih cs).mpr ⟨?_, ?_⟩⟩
        · simp only [List.length_cons] at hlen; omega
        · exact fun d hdm => hall d (List.mem_cons_of_mem _ hdm)

theorem fullMatch_plus_cls (p : CodeUnit → Bool) (w : JSString) :
    (plus (cls p)).fullMatch w = true ↔ w ≠ [] ∧ ∀ c ∈ w, p c = true := by
  rw [plus, fullMatch_atLeast_cls]
  cases w with
  | nil => simp
  | cons c cs => simp

theorem fullMatch_unit (c : CodeUnit) (w : JSString) :
    (unit c).fullMatch w = true ↔ w = [c] := by
  rw [unit, fullMatch_cls]
  constructor
  · rintro ⟨d, hw, hd⟩
    rw [hw, (beq_iff_eq).mp hd]
  · intro hw
    exact ⟨c, hw, by simp⟩

end Regex

/-! ## Properties of the contact form validation -/

namespace Contact

theorem contact_validateField_fst (f : Field) : (validateField f).1 = (check f).1 := by
  simp only [validateField]
  split_ifs <;> rfl

theorem phoneSeparators_fullMatch (c : CodeUnit) :
    phoneSeparators.fullMatch [c] = isPhoneSeparator c := by
  simp only [phoneSeparators, Regex.unit, Regex.fullMatch_alt, Regex.fullMatch_cls_singleton,
    isPhoneSeparator, Bool.or_assoc]

theorem replaceAll_phoneSeparators (v : JSString) :
    replaceAll phoneSeparators (fun _ => []) v = withoutSeparators v := by
  induction v with
  | nil => rfl
  | cons c cs ih =>
    simp only [replaceAll, ih, phoneSeparators_fullMatch, withoutSeparators, List.filter_cons]
    cases isPhoneSeparator c <;> simp

theorem check_tel (f : Field) (hf : f.type = lit "tel") :
    (check f).1 = phoneRegex.fullMatch (withoutSeparators (trim f.value)) := by
  have h1 : lit "tel" ≠ lit "email" := by decide
  simp only [check, hf, h1, if_false, if_true, replaceAll_phoneSeparators]

theorem check_email (f : Field) (hf : f.type = lit "email") :
    (check f).1 = emailRegex.fullMatch (trim f.value) := by
  simp only [check, hf, if_true]

theorem check_textarea (f : Field) (hf : f.type = lit "textarea") :
    (check f).1 = decide ((trim f.value).length ≥ 10) := by
  have h1 : lit "textarea" ≠ lit "email" := by decide
  have h2 : lit "textarea" ≠ lit "tel" := by decide
  have h3 : lit "textarea" ≠ lit "text" := by decide
  have h4 : lit "textarea" ≠ lit "select-one" := by decide
  simp only [check, hf, h1, h2, h3, h4, if_false, if_true]

/-- C7, as stated, fails: once the spaces of `+33 1 23 45 67 89` are removed, eleven digits
remain, yet the field is reported invalid, because the plus sign remains too. -/
theorem phone_counterexample :
    (validateField (inputField (lit "tel") (lit "+33 1 23 45 67 89"))).1 = false ∧
    10 ≤ ((withoutSeparators (trim (lit "+33 1 23 45 67 89"))).filter isDigit).length := by
  decide

/-- C7, amended: a `tel` field is reported valid if and only if, after removing every
whitespace character, hyphen, dot and open parenthesis from the trimmed value, what remains
is made of digits only and of at least 10 of them; `123-456-7890` is valid and `123-456-789`
is invalid. -/
theorem phone_valid_iff (f : Field) (hf : f.type = lit "tel") :
    ((validateField f).1 = true ↔
      10 ≤ (withoutSeparators (trim f.value)).length ∧
        ∀ c ∈ withoutSeparators (trim f.value), isDigit c = true) ∧
    (validateField (inputField (lit "tel") (lit "123-456-7890"))).1 = true ∧
    (validateField (inputField (lit "tel") (lit "123-456-789"))).1 = false := by
  refine ⟨?_, by decide, by decide⟩
  rw [contact_validateField_fst, check_tel f hf, phoneRegex, Regex.fullMatch_atLeast_cls]

theorem phone_valid_iff_witness :
    ((validateField (inputField (lit "tel") (lit " 06 12.34-56 (78 "))).1 = true ↔
      10 ≤ (withoutSeparators (trim (inputField (lit "tel") (lit " 06 12.34-56 (78 ")).value)).length ∧
        ∀ c ∈ withoutSeparators (trim (inputField (lit "tel") (lit " 06 12.34-56 (78 ")).value),
          isDigit c = true) ∧
    (validateField (inputField (lit "tel") (lit "123-456-7890"))).1 = true ∧
    (validateField (inputField (lit "tel") (lit "123-456-789"))).1 = false :=
  phone_valid_iff (inputField (lit "tel") (lit " 06 12.34-56 (78 ")) rfl

theorem emailRegex_fullMatch (v : JSString) :
    emailRegex.fullMatch v = true ↔ EmailShape (fun x => !(isWhiteSpace x || x == 64)) v := by
  simp only [emailRegex, notSpaceNorAt, Regex.fullMatch_seq, Regex.fullMatch_plus_cls,
    Regex.fullMatch_unit, EmailShape]
  constructor
  · rintro ⟨a, v1, h1, ⟨ha, hpa⟩, x, v2, h2, hx, b, v3, h3, ⟨hb, hpb⟩, y, c, h4, hy, hc, hpc⟩
    subst hx hy h4 h3 h2 h1
    exact ⟨a, b, c, by simp, ha, hb, hc, hpa, hpb, hpc⟩
  · rintro ⟨a, b, c, h, ha, hb, hc, hpa, hpb, hpc⟩
    exact ⟨a, 64 :: (b ++ 46 :: c), h, ⟨ha, hpa⟩, [64], b ++ 46 :: c, rfl, rfl, b, 46 :: c, rfl,
      ⟨hb, hpb⟩, [46], c, rfl, rfl, hc, hpc⟩

/-- C9, as stated, fails: `a@b@c.d` has the shape "non-space characters, `@`, non-space
characters, `.`, non-space characters" (with `a@b` as first part), yet the field is
reported invalid. -/
theorem email_counterexample :
    (validateField (inputField (lit "email") (lit "a@b@c.d"))).1 = false ∧
    EmailShape (fun x => !isWhiteSpace x) (trim (lit "a@b@c.d")) :=
  ⟨by decide, lit "a@b", lit "c", lit "d", by decide, by decide, by decide, by decide,
    by decide, by decide, by decide⟩

/-- C9, amended: an `email` field is reported valid if and only if the trimmed value has the
shape: one or more characters that are neither whitespace nor `@`, a literal `@`, one or more
such characters, a literal `.`, one or more such characters. -/
theorem email_valid_iff (f : Field) (hf : f.type = lit "email") :
    (validateField f).1 = true ↔
      EmailShape (fun x => !(isWhiteSpace x || x == 64)) (trim f.value) := by
  rw [contact_validateField_fst, check_email f hf, emailRegex_fullMatch]

theorem email_valid_iff_witness :
    (validateField (inputField (lit "email") (lit " jean.dupont@example.fr "))).1 = true ↔
      EmailShape (fun x => !(isWhiteSpace x || x == 64))
        (trim (inputField (lit "email") (lit " jean.dupont@example.fr ")).value) :=
  email_valid_iff (inputField (lit "email") (lit " jean.dupont@example.fr ")) rfl

end Contact

/-! ## Properties of the review form -/

namespace ReviewManager

theorem review_validateField_fst (f : Field) : (validateField f).1 = (check f).1 := by
  simp only [validateField]
  split_ifs <;> rfl

theorem check_avis (f : Field) (hf : f.name = lit "avis") :
    (check f).1 = decide (10 ≤ (trim f.value).length) := by
  have h1 : lit "avis" ≠ lit "nom" := by decide
  have h2 : lit "avis" ≠ lit "prenom" := by decide
  have h3 : lit "avis" ≠ lit "ville" := by decide
  simp only [check, hf, h1, h2, h3, or_self, if_false, if_true]
  cases h : trim f.value with
  | nil => simp
  | cons c cs =>
    by_cases h10 : (c :: cs).length < 10
    · have hd : decide (10 ≤ (c :: cs).length) = false := by
        rw [decide_eq_false_iff_not]; omega
      simp only [List.isEmpty_cons, Bool.false_eq_true, if_false, h10, if_true, hd]
    · have hd : decide (10 ≤ (c :: cs).length) = true := by
        rw [decide_eq_true_eq]; omega
      simp only [List.isEmpty_cons, Bool.false_eq_true, if_false, h10, hd]

end ReviewManager

namespace ReviewManager

theorem validateFormLoop_fst (isValid : Bool) (form : List Field) :
    (validateFormLoop isValid form).1 =
      (isValid && form.all (fun f => !f.required || (validateField f).1)) := by
  induction form generalizing isValid with
  | nil => simp [validateFormLoop]
  | cons f rest ih =>
    simp only [validateFormLoop, List.all_cons]
    cases hr : f.required
    · simp [ih]
    · cases hv : (validateField f).1 <;> simp [ih]

theorem validateFormLoop_snd (isValid : Bool) (form : List Field) :
    (validateFormLoop isValid form).2 =
      form.map (fun f => if f.required then (validateField f).2 else f) := by
  induction form generalizing isValid with
  | nil => rfl
  | cons f rest ih =>
    simp only [validateFormLoop, List.map_cons]
    cases hr : f.required <;> simp [ih]

theorem validateForm_iff (form : List Field) :
    (validateForm form).1 = true ↔
      ∀ f ∈ form, f.required = true → (validateField f).1 = true := by
  rw [validateForm, validateFormLoop_fst, Bool.true_and, List.all_eq_true]
  constructor
  · intro h f hf hreq
    have := h f hf
    simpa [hreq] using this
  · intro h f hf
    cases hreq : f.required
    · rfl
    · simpa using h f hf hreq

/-- C10: `handleFormSubmit` calls `sendReview` if and only if every required field passes
`validateField`; when some required field fails, the feedback becomes the aggregate message
with type `error`, `sendReview` is not called and local storage is unchanged; `validateForm`
returns `true` exactly when `validateField` is `true` for all required fields, and it leaves
every required field as `validateField` displays it (no field is skipped). -/
theorem submit_gating (st : State) (date : JSString) :
    ((handleFormSubmit st date).2.isSome = true ↔
      ∀ f ∈ st.form, f.required = true → (validateField f).1 = true) ∧
    ((∃ f ∈ st.form, f.required = true ∧ (validateField f).1 = false) →
      (handleFormSubmit st date).1.feedback.textContent
          = lit "Veuillez corriger les erreurs du formulaire." ∧
        (handleFormSubmit st date).1.feedback.className = lit "form-feedback error" ∧
        (handleFormSubmit st date).2 = none ∧
        (handleFormSubmit st date).1.storage = st.storage) ∧
    ((validateForm st.form).1 = true ↔
      ∀ f ∈ st.form, f.required = true → (validateField f).1 = true) ∧
    (validateForm st.form).2 =
      st.form.map (fun f => if f.required then (validateField f).2 else f) ∧
    (handleFormSubmit st date).1.form = (validateForm st.form).2 := by
  refine ⟨?_, ?_, validateForm_iff st.form, validateFormLoop_snd true st.form, ?_⟩
  · rw [← validateForm_iff]
    simp only [handleFormSubmit]
    cases (validateForm st.form).1 <;> simp
  · rintro ⟨f, hf, hreq, hbad⟩
    have hfalse : (validateForm st.form).1 = false := by
      cases h : (validateForm st.form).1
      · rfl
      · have := (validateForm_iff st.form).mp h f hf hreq
        rw [hbad] at this
        cases this
    have hstep : handleFormSubmit st date =
        ({ st with form := (validateForm st.form).2,
                   feedback := showFeedback (lit "Veuillez corriger les erreurs du formulaire.")
                     (lit "error") }, none) := by
      simp [handleFormSubmit, hfalse]
    rw [hstep]
    refine ⟨rfl, ?_, rfl, rfl⟩
    show lit "form-feedback " ++ lit "error" = lit "form-feedback error"
    decide
  · simp only [handleFormSubmit]
    cases (validateForm st.form).1 <;> rfl

theorem submit_gating_witness :
    (handleFormSubmit (rendered (renderedForm (lit "Martin") (lit "Léa") (lit "Lyon") (lit "5")
        (lit "Très bien")) LocalStorage.empty) (lit "04/11/2026")).2 = none ∧
    (handleFormSubmit (rendered (renderedForm (lit "Martin") (lit "Léa") (lit "Lyon") (lit "5")
        (lit "Très bien")) LocalStorage.empty) (lit "04/11/2026")).1.feedback.className
      = lit "form-feedback error" :=
  have h := (submit_gating (rendered (renderedForm (lit "Martin") (lit "Léa") (lit "Lyon")
      (lit "5") (lit "Très bien")) LocalStorage.empty) (lit "04/11/2026")).2.1
    ⟨control (lit "textarea") (lit "avis") (lit "Très bien"), by simp [rendered, renderedForm],
      rfl, by decide⟩
  ⟨h.2.2.1, h.2.1⟩

theorem storage_setItem_same (ls : LocalStorage) (key : JSString) (text : StoredText) :
    (ls.setItem key text).getItem key = some text := by
  simp [LocalStorage.setItem, LocalStorage.getItem]

theorem storage_setItem_other (ls : LocalStorage) (key k : JSString) (text : StoredText)
    (hk : k ≠ key) : (ls.setItem key text).getItem k = ls.getItem k := by
  simp [LocalStorage.setItem, LocalStorage.getItem, hk]

theorem parsed_list (item : Option StoredText) (l : List JSValue)
    (h : item = some (.json (.arr l)) ∨ (item = none ∧ l = [])) :
    (jsonParse item).map orEmptyArray = some (.arr l) := by
  rcases h with h | ⟨h, hl⟩
  · subst h; rfl
  · subst h hl; rfl

/-- C2: when `reviews-json` holds the list `J` and `reviews-new` the list `U` (an absent key
standing for the empty list), the list that the callback of `loadReviews` passes to
`displayReviews` is `U` followed by `J`. -/
theorem loadReviews_order (st : State) (J U : List JSValue)
    (hJ : st.storage.getItem (lit "reviews-json") = some (.json (.arr J)) ∨
      (st.storage.getItem (lit "reviews-json") = none ∧ J = []))
    (hU : st.storage.getItem (lit "reviews-new") = some (.json (.arr U)) ∨
      (st.storage.getItem (lit "reviews-new") = none ∧ U = [])) :
    allReviews st.storage = some (U ++ J) ∧
    (loadReviewsCallback (loadReviews st)).reviewsList = .displayed (U ++ J) := by
  have hJ' := parsed_list _ J hJ
  have hU' := parsed_list _ U hU
  have hall : allReviews st.storage = some (U ++ J) := by
    unfold allReviews
    cases hj : jsonParse (st.storage.getItem (lit "reviews-json")) with
    | none => rw [hj] at hJ'; cases hJ'
    | some pj =>
      cases hu : jsonParse (st.storage.getItem (lit "reviews-new")) with
      | none => rw [hu] at hU'; cases hU'
      | some pu =>
        rw [hj] at hJ'
        rw [hu] at hU'
        simp only [Option.map_some', Option.some.injEq] at hJ' hU'
        simp only [hJ', hU', spread]
  refine ⟨hall, ?_⟩
  have hs : (loadReviews st).storage = st.storage := rfl
  simp only [loadReviewsCallback, hs, hall]

theorem loadReviews_order_witness :
    allReviews ((LocalStorage.empty.setItem (lit "reviews-json")
        (.json (.arr [.str (lit "B1"), .str (lit "B2")]))).setItem (lit "reviews-new")
        (.json (.arr [.str (lit "U")])))
      = some [.str (lit "U"), .str (lit "B1"), .str (lit "B2")] :=
  (loadReviews_order
    (rendered [] ((LocalStorage.empty.setItem (lit "reviews-json")
        (.json (.arr [.str (lit "B1"), .str (lit "B2")]))).setItem (lit "reviews-new")
        (.json (.arr [.str (lit "U")]))))
    [.str (lit "B1"), .str (lit "B2")] [.str (lit "U")]
    (Or.inl rfl) (Or.inl rfl)).1

/-- C3: when `reviews-new` holds the list `L` (an absent key standing for the empty list), a
`sendReview(r)` whose write is accepted ends on the success feedback and leaves `reviews-new`
holding `r` followed by the elements of `L` in their order, and every other key, the
baseline `reviews-json` among them, as it was. -/
theorem sendReview_prepends (st : State) (r : JSValue) (L : List JSValue)
    (hL : st.storage.getItem (lit "reviews-new") = some (.json (.arr L)) ∨
      (st.storage.getItem (lit "reviews-new") = none ∧ L = [])) :
    (sendReview st r true).feedback.className = lit "form-feedback success" ∧
    (sendReview st r true).storage.getItem (lit "reviews-new") = some (.json (.arr (r :: L))) ∧
    (sendReview st r true).storage.getItem (lit "reviews-json")
      = st.storage.getItem (lit "reviews-json") ∧
    (∀ k, k ≠ lit "reviews-new" →
      (sendReview st r true).storage.getItem k = st.storage.getItem k) := by
  have hL' := parsed_list _ L hL
  have hsend : sendReview st r true =
      { form := resetForm st.form,
        feedback := showFeedback (lit "Merci ! Votre avis a été ajouté avec succès.")
          (lit "success"),
        charCount := lit "0/500",
        reviewsList := .loading,
        storage := st.storage.setItem (lit "reviews-new") (jsonStringify (.arr (r :: L))) } := by
    unfold sendReview
    cases hp : jsonParse (st.storage.getItem (lit "reviews-new")) with
    | none => rw [hp] at hL'; cases hL'
    | some parsed =>
      rw [hp] at hL'
      simp only [Option.map_some', Option.some.injEq] at hL'
      simp only [hL', if_true]
  rw [hsend]
  refine ⟨?_, storage_setItem_same _ _ _, ?_, ?_⟩
  · show lit "form-feedback " ++ lit "success" = lit "form-feedback success"
    decide
  · exact storage_setItem_other _ _ _ _ (by decide)
  · intro k hk
    exact storage_setItem_other _ _ _ _ hk

theorem sendReview_prepends_witness :
    (sendReview
      (rendered [] (LocalStorage.empty.setItem (lit "reviews-new")
          (.json (.arr [.str (lit "old")]))))
      (.str (lit "new")) true).storage.getItem (lit "reviews-new")
      = some (.json (.arr [.str (lit "new"), .str (lit "old")])) :=
  (sendReview_prepends
    (rendered [] (LocalStorage.empty.setItem (lit "reviews-new")
        (.json (.arr [.str (lit "old")]))))
    (.str (lit "new")) [.str (lit "old")]
    (Or.inl rfl)).2.1

end ReviewManager

/-- C8: the review form reports its `avis` field valid, and the contact form its `textarea`
valid, if and only if the trimmed value has length at least 10; a trimmed length of 9 fails
and a trimmed length of 10 passes. -/
theorem long_text_valid_iff (f g : Field) (hf : f.name = lit "avis")
    (hg : g.type = lit "textarea") :
    ((ReviewManager.validateField f).1 = true ↔ 10 ≤ (trim f.value).length) ∧
    ((Contact.validateField g).1 = true ↔ 10 ≤ (trim g.value).length) ∧
    ((trim f.value).length = 9 → (ReviewManager.validateField f).1 = false) ∧
    ((trim f.value).length = 10 → (ReviewManager.validateField f).1 = true) ∧
    ((trim g.value).length = 9 → (Contact.validateField g).1 = false) ∧
    ((trim g.value).length = 10 → (Contact.validateField g).1 = true) := by
  rw [ReviewManager.review_validateField_fst, ReviewManager.check_avis f hf,
    Contact.contact_validateField_fst, Contact.check_textarea g hg]
  simp only [decide_eq_true_eq, decide_eq_false_iff_not, ge_iff_le]
  refine ⟨trivial, trivial, ?_, ?_, ?_, ?_⟩ <;> intro h <;> omega

theorem long_text_valid_iff_witness :
    (ReviewManager.validateField
        { type := lit "textarea", name := lit "avis", value := lit "  Très bien  ",
          required := true, defaultValue := [], errorClass := false,
          errorElement := some [] }).1 = false ∧
    (Contact.validateField (Contact.inputField (lit "textarea") (lit " Très bien! "))).1
      = true :=
  have h := long_text_valid_iff
    { type := lit "textarea", name := lit "avis", value := lit "  Très bien  ",
      required := true, defaultValue := [], errorClass := false, errorElement := some [] }
    (Contact.inputField (lit "textarea") (lit " Très bien! ")) rfl rfl
  ⟨h.2.2.1 (by decide), h.2.2.2.2.2 (by decide)⟩


/-! ## Properties of the header menu -/

namespace HeaderComponent

theorem boolText_eq_true (b : Bool) : boolText b = lit "true" ↔ b = true := by
  cases b
  · simp only [boolText, Bool.false_eq_true, if_false, iff_false]
    decide
  · simp [boolText]

theorem toggleClick_agree (s : State) (h : Agree s) : Agree (toggleClick s) := by
  obtain ⟨h1, h2⟩ := h
  refine ⟨?_, ?_⟩
  · show boolText (!decide (s.ariaExpanded = lit "true")) = lit "true" ↔ (!s.navOpen) = true
    rw [boolText_eq_true]
    by_cases ha : s.ariaExpanded = lit "true"
    · have hn := h1.mp ha
      simp [ha, hn]
    · have hn : s.navOpen = false := by
        cases hv : s.navOpen
        · rfl
        · exact absurd (h1.mpr hv) ha
      simp [ha, hn]
  · show (!s.navOpen) = true ↔ (!s.toggleActive) = true
    cases hn : s.navOpen <;> cases ht : s.toggleActive <;> simp_all

theorem agree_initial : Agree initial :=
  ⟨by decide, by decide⟩

theorem run_agree (clicks : List Click) (s : State) (h : Agree s) : Agree (run s clicks) := by
  induction clicks generalizing s with
  | nil => exact h
  | cons click rest ih =>
    show Agree (run (step s click) rest)
    apply ih
    cases click with
    | toggle => exact toggleClick_agree s h
    | link => exact agree_initial

/-- C18: in every state reached from the initial closed state by toggle clicks and link
clicks the three flags agree (`aria-expanded` is `true` iff the nav has `is-open` iff the
button has `is-active`); a toggle click negates each of the three flags of such a state, and
a link click yields the closed state whatever the prior state was. -/
theorem menu_state (clicks : List Click) :
    Agree (run initial clicks) ∧
    ((toggleClick (run initial clicks)).ariaExpanded = lit "true" ↔
      ¬ (run initial clicks).ariaExpanded = lit "true") ∧
    (toggleClick (run initial clicks)).navOpen = !(run initial clicks).navOpen ∧
    (toggleClick (run initial clicks)).toggleActive = !(run initial clicks).toggleActive ∧
    (∀ s : State, linkClick s = initial) := by
  refine ⟨run_agree clicks initial agree_initial, ?_, rfl, rfl, fun _ => rfl⟩
  show boolText (!decide ((run initial clicks).ariaExpanded = lit "true")) = lit "true" ↔ _
  rw [boolText_eq_true]
  simp

end HeaderComponent

/-! ## Properties of the install prompt -/

namespace PwaInstall

theorem click_without_pending (s : State) (h : s.deferredPrompt = none) :
    step s .click = s := by
  simp only [step, h]
  cases s.installButton <;> rfl

theorem resume_closes (s : State) (display : JSString) (h : s.installButton = some display) :
    (resume s).deferredPrompt = none ∧ (resume s).installButton = some (lit "none") := by
  simp [resume, setDisplay, h]

/-- C16, evaluated on the trace "event 0 received, click, click": the second click finds
`deferredPrompt` still set, because the first handler clears it only after its `await`, and
`prompt()` is called a second time on the same event. -/
theorem prompt_called_twice :
    (run initial [.beforeInstallPrompt 0, .click, .click]).prompted = [0, 0] ∧
    (run initial [.beforeInstallPrompt 0, .click, .click]).prompted.count 0 = 2 ∧
    (run initial [.beforeInstallPrompt 0, .click, .click, .userChoiceResolved 0]).deferredPrompt
      = none ∧
    (run initial [.beforeInstallPrompt 0, .click, .click, .userChoiceResolved 0]).installButton
      = some (lit "none") := by
  decide

end PwaInstall

/-! ## Properties of the service worker -/

namespace ServiceWorker

theorem deletionsFor_eq_filter (current : JSString) (cacheNames : List JSString) :
    deletionsFor current cacheNames = cacheNames.filter (fun name => decide (name ≠ current)) := by
  induction cacheNames with
  | nil => rfl
  | cons name rest ih =>
    unfold deletionsFor at ih ⊢
    by_cases h : name = current
    · rw [List.filterMap_cons, List.filter_cons, ih]
      simp [h]
    · rw [List.filterMap_cons, List.filter_cons, ih]
      simp [h]

theorem foldl_cachesDelete (names : List JSString) (caches : CacheStorage) :
    names.foldl cachesDelete caches = caches.filter (fun named => decide (named.1 ∉ names)) := by
  induction names generalizing caches with
  | nil => simp
  | cons name rest ih =>
    rw [List.foldl_cons, ih, cachesDelete, List.filter_filter]
    apply List.filter_congr
    intro named _
    by_cases h1 : named.1 = name <;> by_cases h2 : named.1 ∈ rest <;> simp [h1, h2]

theorem activateFor_eq_filter (current : JSString) (caches : CacheStorage) :
    activateFor current caches = caches.filter (fun named => decide (named.1 = current)) := by
  rw [activateFor, foldl_cachesDelete, deletionsFor_eq_filter]
  apply List.filter_congr
  intro named hmem
  have hk : named.1 ∈ cachesKeys caches := List.mem_map_of_mem _ hmem
  by_cases h : named.1 = current
  · simp [h]
  · simp [h, List.mem_filter, hk]

/-- C12: whatever caches exist, the `activate` listener requests the deletion of exactly the
names that differ from the current tag, and the caches left afterwards are exactly those
named by the current tag, untouched; with the generations `mhs-v1` and `mhs-v2` and the
current tag `mhs-v2` it deletes exactly `mhs-v1` and leaves `mhs-v2`. -/
theorem activate_deletes_stale (current : JSString) (caches : CacheStorage) :
    (∀ name, name ∈ deletionsFor current (cachesKeys caches) ↔
      name ∈ cachesKeys caches ∧ name ≠ current) ∧
    activateFor current caches = caches.filter (fun named => decide (named.1 = current)) ∧
    (∀ name, name ∈ cachesKeys (activateFor current caches) ↔
      name ∈ cachesKeys caches ∧ name = current) ∧
    activate caches = activateFor CACHE_NAME caches ∧
    deletionsFor (lit "mhs-v2") (cachesKeys [(lit "mhs-v1", []), (lit "mhs-v2", [])])
      = [lit "mhs-v1"] ∧
    cachesKeys (activateFor (lit "mhs-v2") [(lit "mhs-v1", []), (lit "mhs-v2", [])])
      = [lit "mhs-v2"] := by
  refine ⟨?_, activateFor_eq_filter current caches, ?_, rfl, by decide, by decide⟩
  · intro name
    rw [deletionsFor_eq_filter, List.mem_filter]
    simp
  · intro name
    rw [activateFor_eq_filter]
    simp only [cachesKeys, List.mem_map, List.mem_filter, decide_eq_true_eq]
    constructor
    · rintro ⟨named, ⟨hmem, hcur⟩, hname⟩
      exact ⟨⟨named, hmem, hname⟩, by rw [← hname, hcur]⟩
    · rintro ⟨⟨named, hmem, hname⟩, hcur⟩
      exact ⟨named, ⟨hmem, by rw [hname, hcur]⟩, hname⟩

theorem includes_iff (s sub : JSString) : includes s sub = true ↔ sub <:+: s := by
  rw [includes, List.any_eq_true, List.infix_iff_prefix_suffix]
  constructor
  · rintro ⟨t, ht, hp⟩
    exact ⟨t, List.isPrefixOf_iff_prefix.mp hp, (List.mem_tails t s).mp ht⟩
  · rintro ⟨t, hp, ht⟩
    exact ⟨t, (List.mem_tails t s).mpr ht, List.isPrefixOf_iff_prefix.mpr hp⟩

theorem endsWith_iff (s sub : JSString) : endsWith s sub = true ↔ sub <:+ s := by
  rw [endsWith, List.isSuffixOf_iff_suffix]

theorem isStaticAsset_iff (url : JSString) : isStaticAsset url = true ↔ IsStaticUrl url := by
  simp only [isStaticAsset, IsStaticUrl, Bool.or_eq_true, includes_iff, endsWith_iff, or_assoc]

theorem route_notHandled_iff (request : Request) :
    route request = .notHandled ↔ request.method ≠ lit "GET" := by
  unfold route
  by_cases hm : request.method = lit "GET"
  · by_cases hs : isStaticAsset request.url = true <;> simp [hm, hs]
  · simp [hm]

theorem route_cacheFirst_iff (request : Request) :
    route request = .cacheFirst ↔ request.method = lit "GET" ∧ IsStaticUrl request.url := by
  rw [← isStaticAsset_iff]
  unfold route
  by_cases hm : request.method = lit "GET"
  · by_cases hs : isStaticAsset request.url = true <;> simp [hm, hs]
  · simp [hm]

theorem route_networkFirst_iff (request : Request) :
    route request = .networkFirst ↔ request.method = lit "GET" ∧ ¬ IsStaticUrl request.url := by
  rw [← isStaticAsset_iff]
  unfold route
  by_cases hm : request.method = lit "GET"
  · by_cases hs : isStaticAsset request.url = true <;> simp [hm, hs]
  · simp [hm]

/-- C15: the treatment of a request is a function of its method and URL: `respondWith` is
not called (and nothing is fetched or stored) exactly when the method is not `GET`; a `GET`
request is handled by the cache-first branch exactly when its URL contains `/css/`, `/js/`,
`/img/` or `/video/` or ends with `.html`, and by the network-first branch otherwise; both
branches call `respondWith`, so exactly one of the three outcomes applies. -/
theorem routing_total (env : Env) (caches : CacheStorage) (request : Request) :
    (route request = .notHandled ↔ request.method ≠ lit "GET") ∧
    (route request = .cacheFirst ↔ request.method = lit "GET" ∧ IsStaticUrl request.url) ∧
    (route request = .networkFirst ↔
      request.method = lit "GET" ∧ ¬ IsStaticUrl request.url) ∧
    (request.method ≠ lit "GET" →
      (onFetch env caches request).respondWith = none ∧
      (onFetch env caches request).fetches = [] ∧ (onFetch env caches request).puts = [] ∧
      (onFetch env caches request).caches = caches) ∧
    (request.method = lit "GET" → IsStaticUrl request.url →
      onFetch env caches request = cacheFirst env caches request) ∧
    (request.method = lit "GET" → ¬ IsStaticUrl request.url →
      onFetch env caches request = networkFirst env caches request) ∧
    (cacheFirst env caches request).respondWith ≠ none ∧
    (networkFirst env caches request).respondWith ≠ none := by
  refine ⟨route_notHandled_iff request, route_cacheFirst_iff request,
    route_networkFirst_iff request, ?_, ?_, ?_, ?_, ?_⟩
  · intro hm
    have hr := (route_notHandled_iff request).mpr hm
    refine ⟨?_, ?_, ?_, ?_⟩ <;> simp only [onFetch, hr]
  · intro hm hs
    have hr := (route_cacheFirst_iff request).mpr ⟨hm, hs⟩
    simp only [onFetch, hr]
  · intro hm hs
    have hr := (route_networkFirst_iff request).mpr ⟨hm, hs⟩
    simp only [onFetch, hr]
  · unfold cacheFirst
    cases cachesMatch caches request with
    | some response => simp
    | none =>
      cases env.network request with
      | some response => simp only; split <;> simp
      | none => simp
  · unfold networkFirst
    cases env.network request with
    | some response => simp only; split <;> simp
    | none => simp

theorem routing_total_witness :
    route { method := lit "POST", url := lit "https://example.org/js/script.js" }
      = .notHandled ∧
    route { method := lit "GET", url := lit "https://example.org/js/script.js" }
      = .cacheFirst ∧
    route { method := lit "GET", url := lit "https://example.org/api/avis" }
      = .networkFirst :=
  ⟨(routing_total { origin := lit "https://example.org", network := fun _ => none } []
      { method := lit "POST", url := lit "https://example.org/js/script.js" }).1.mpr
      (by decide),
    (routing_total { origin := lit "https://example.org", network := fun _ => none } []
      { method := lit "GET", url := lit "https://example.org/js/script.js" }).2.1.mpr
      ⟨rfl, (isStaticAsset_iff _).mp (by decide)⟩,
    (routing_total { origin := lit "https://example.org", network := fun _ => none } []
      { method := lit "GET", url := lit "https://example.org/api/avis" }).2.2.1.mpr
      ⟨rfl, fun h => absurd ((isStaticAsset_iff _).mpr h) (by decide)⟩⟩

/-- C13: a `GET` request routed cache first for which `caches.match` finds an entry is
answered with that entry, without any network fetch and without any write to the caches. -/
theorem cache_first_hit (env : Env) (caches : CacheStorage) (request : Request)
    (response : Response) (hget : request.method = lit "GET")
    (hstatic : IsStaticUrl request.url)
    (hhit : cachesMatch caches request = some response) :
    route request = .cacheFirst ∧
    (onFetch env caches request).respondWith = some (some response) ∧
    (onFetch env caches request).fetches = [] ∧
    (onFetch env caches request).puts = [] ∧
    (onFetch env caches request).caches = caches := by
  have hr := (route_cacheFirst_iff request).mpr ⟨hget, hstatic⟩
  refine ⟨hr, ?_⟩
  refine ⟨?_, ?_, ?_, ?_⟩ <;> simp only [onFetch, hr, cacheFirst, hhit]

theorem cache_first_hit_witness :
    (onFetch { origin := lit "https://example.org", network := fun _ => none }
      [(CACHE_NAME, [(lit "https://example.org/js/script.js",
        { status := 200, type := lit "basic", body := lit "// script" })])]
      { method := lit "GET", url := lit "https://example.org/js/script.js" }).respondWith
      = some (some { status := 200, type := lit "basic", body := lit "// script" }) ∧
    (onFetch { origin := lit "https://example.org", network := fun _ => none }
      [(CACHE_NAME, [(lit "https://example.org/js/script.js",
        { status := 200, type := lit "basic", body := lit "// script" })])]
      { method := lit "GET", url := lit "https://example.org/js/script.js" }).fetches = [] :=
  have h := cache_first_hit { origin := lit "https://example.org", network := fun _ => none }
    [(CACHE_NAME, [(lit "https://example.org/js/script.js",
      { status := 200, type := lit "basic", body := lit "// script" })])]
    { method := lit "GET", url := lit "https://example.org/js/script.js" }
    { status := 200, type := lit "basic", body := lit "// script" }
    rfl ((isStaticAsset_iff _).mp (by decide)) rfl
  ⟨h.2.1, h.2.2.1⟩

theorem mapM_eq_none {α β : Type} (f : α → Option β) (l : List α)
    (h : ∃ x ∈ l, f x = none) : l.mapM f = none := by
  induction l with
  | nil =>
    obtain ⟨x, hx, _⟩ := h
    cases hx
  | cons a rest ih =>
    rw [List.mapM_cons]
    cases hfa : f a with
    | none => rfl
    | some b =>
      obtain ⟨x, hx, hfx⟩ := h
      rcases List.mem_cons.mp hx with hxa | hxr
      · rw [hxa, hfa] at hfx
        cases hfx
      · rw [ih ⟨x, hxr, hfx⟩]
        rfl

/-- C14, as stated, fails: with a network on which every fetch fails, `cache.addAll`
rejects, yet the promise handed to `event.waitUntil` is resolved, not rejected. -/
theorem install_failure_counterexample :
    (addAll { origin := lit "https://example.org", network := fun _ => none }
      (cachesOpen [] CACHE_NAME) CACHE_NAME urlsToCache).1.isRejected = true ∧
    (install { origin := lit "https://example.org", network := fun _ => none } []).1.isRejected
      = false := by
  decide

theorem mapM_eq_none_exists {α β : Type} (f : α → Option β) (l : List α)
    (h : l.mapM f = none) : ∃ x ∈ l, f x = none := by
  induction l with
  | nil =>
    rw [List.mapM_nil] at h
    cases h
  | cons a rest ih =>
    rw [List.mapM_cons] at h
    cases hfa : f a with
    | none => exact ⟨a, List.mem_cons_self _ _, hfa⟩
    | some b =>
      rw [hfa] at h
      cases hrest : rest.mapM f with
      | none =>
        obtain ⟨x, hx, hfx⟩ := ih hrest
        exact ⟨x, List.mem_cons_of_mem _ hx, hfx⟩
      | some bs =>
        rw [hrest] at h
        cases h

theorem addAll_rejected_iff (env : Env) (caches : CacheStorage) (name : JSString)
    (urls : List JSString) :
    (addAll env caches name urls).1.isRejected = true ↔
      ∃ path ∈ urls, fetchForCache env path = none := by
  constructor
  · intro h
    cases hm : urls.mapM (fetchForCache env) with
    | none => exact mapM_eq_none_exists _ _ hm
    | some responses =>
      simp only [addAll, hm] at h
      cases h
  · intro h
    simp only [addAll, mapM_eq_none (fetchForCache env) urls h]
    rfl

/-- C14, amended: `cache.addAll` rejects exactly when a resource of the manifest cannot be
fetched or is refused (network failure, status outside 200 to 299, status 206, `Vary: *`);
whenever that happens nothing is stored (the caches are left as `caches.open` made them),
and the promise handed to `event.waitUntil` resolves instead of rejecting. -/
theorem install_swallows_failure (env : Env) (caches : CacheStorage)
    (hfail : ∃ path ∈ urlsToCache, fetchForCache env path = none) :
    ((addAll env (cachesOpen caches CACHE_NAME) CACHE_NAME urlsToCache).1.isRejected = true ↔
      ∃ path ∈ urlsToCache, fetchForCache env path = none) ∧
    (addAll env (cachesOpen caches CACHE_NAME) CACHE_NAME urlsToCache).1.isRejected = true ∧
    (install env caches).2 = cachesOpen caches CACHE_NAME ∧
    (install env caches).1 = .resolved () ∧
    (install env caches).1.isRejected = false := by
  have hnone := mapM_eq_none (fetchForCache env) urlsToCache hfail
  have hadd : addAll env (cachesOpen caches CACHE_NAME) CACHE_NAME urlsToCache
      = (.rejected (lit "TypeError"), cachesOpen caches CACHE_NAME) := by
    simp only [addAll, hnone]
  have hres : (install env caches).1 = .resolved () := by
    simp only [install, hadd]
    rfl
  refine ⟨addAll_rejected_iff env _ CACHE_NAME urlsToCache, by rw [hadd]; rfl, ?_, hres,
    by rw [hres]; rfl⟩
  simp only [install, hadd]

theorem install_swallows_failure_witness :
    (install { origin := lit "https://example.org",
               network := fun _ => some { status := 206, type := lit "basic", body := [] } }
      []).2 = [(CACHE_NAME, [])] ∧
    (install { origin := lit "https://example.org",
               network := fun _ => some { status := 206, type := lit "basic", body := [] } }
      []).1 = .resolved () :=
  have h := install_swallows_failure
    { origin := lit "https://example.org",
      network := fun _ => some { status := 206, type := lit "basic", body := [] } }
    [] ⟨lit "/", by simp [urlsToCache], rfl⟩
  ⟨h.2.2.1, h.2.2.2.1⟩

end ServiceWorker

/-! ## Properties of the baseline load and of the star rating -/

namespace ReviewManager

theorem loadReviews_storage (st : State) : (loadReviews st).storage = st.storage :=
  rfl

theorem storeBaseline_accepted (st : State) (v : JSValue) (accepts : StoredText → Bool)
    (h : accepts (.json v) = true) :
    storeBaseline st v accepts
      = some { st with storage := st.storage.setItem (lit "reviews-json") (.json v) } := by
  simp [storeBaseline, jsonStringify, h]

theorem storeBaseline_keeps_new (st st1 : State) (v : JSValue) (accepts : StoredText → Bool)
    (h : storeBaseline st v accepts = some st1) :
    st1.storage.getItem (lit "reviews-new") = st.storage.getItem (lit "reviews-new") := by
  unfold storeBaseline at h
  split at h
  · cases h
    exact storage_setItem_other _ _ _ _ (by decide)
  · cases h

theorem tryFetch_failed (st : State) (fetched : FetchOutcome) (accepts : StoredText → Bool)
    (h : fetched.Failed) : tryFetch st fetched accepts = none := by
  rcases h with h | ⟨body, h⟩ <;> subst h <;> rfl

theorem tryFetch_unusable (st : State) (fetched : FetchOutcome)
    (accepts : StoredText → Bool) (h : fetched.Unusable accepts) :
    tryFetch st fetched accepts = none := by
  rcases h with h | h | ⟨v, h, ha⟩
  · exact tryFetch_failed st fetched accepts h
  · subst h
    rfl
  · subst h
    simp [tryFetch, storeBaseline, jsonStringify, ha]

/-- C11, as stated, fails. With `["old"]` cached and the fetch answering with an ok status:
when the storage refuses the write of the fetched `["B1"]` (no `AVIS_DATA`), `reviews-json`
still holds `["old"]`, not the fetched collection; when the body does not parse and
`AVIS_DATA` is `["F1"]`, `reviews-json` holds `["F1"]`, although the fetch did not fail. -/
theorem baseline_load_counterexample :
    (initializeAndLoadReviews
      (rendered [] (LocalStorage.empty.setItem (lit "reviews-json")
        (.json (.arr [.str (lit "old")]))))
      (.response true (some (.arr [.str (lit "B1")]))) none (fun _ => false)).storage.getItem
        (lit "reviews-json") = some (.json (.arr [.str (lit "old")])) ∧
    (some (StoredText.json (.arr [.str (lit "old")]))
      ≠ some (StoredText.json (.arr [.str (lit "B1")]))) ∧
    (initializeAndLoadReviews
      (rendered [] (LocalStorage.empty.setItem (lit "reviews-json")
        (.json (.arr [.str (lit "old")]))))
      (.response true none) (some (.arr [.str (lit "F1")])) (fun _ => true)).storage.getItem
        (lit "reviews-json") = some (.json (.arr [.str (lit "F1")])) ∧
    ¬ FetchOutcome.Failed (.response true none) := by
  refine ⟨rfl, ?_, rfl, ?_⟩
  · intro h
    injection h with h
    injection h with h
    injection h with h
    injection h with h _
    injection h with h
    exact absurd h (by decide)
  · rintro (h | ⟨body, h⟩)
    · cases h
    · cases h

/-- C11, amended: after `initializeAndLoadReviews`, `reviews-json` holds (a) the fetched
collection when the fetch succeeds with an ok status, its body parses and the storage
accepts the write, whatever was cached before; (b) `AVIS_DATA` when the `try` block cannot
complete (the fetch fails, or the body does not parse, or the write of the fetched collection
is refused), `AVIS_DATA` is defined and the storage accepts its write; (c) its previous
value, possibly none, when the `try` block cannot complete and `AVIS_DATA` is undefined. In
every case, a refused write included, `reviews-new` is unchanged. -/
theorem baseline_load (st : State) (fetched : FetchOutcome) (avisData : Option JSValue)
    (accepts : StoredText → Bool) :
    (∀ v, fetched = .response true (some v) → accepts (.json v) = true →
      (initializeAndLoadReviews st fetched avisData accepts).storage.getItem
        (lit "reviews-json") = some (.json v)) ∧
    (∀ data, fetched.Unusable accepts → avisData = some data → accepts (.json data) = true →
      (initializeAndLoadReviews st fetched avisData accepts).storage.getItem
        (lit "reviews-json") = some (.json data)) ∧
    (fetched.Unusable accepts → avisData = none →
      (initializeAndLoadReviews st fetched avisData accepts).storage.getItem
        (lit "reviews-json") = st.storage.getItem (lit "reviews-json")) ∧
    (initializeAndLoadReviews st fetched avisData accepts).storage.getItem (lit "reviews-new")
      = st.storage.getItem (lit "reviews-new") := by
  refine ⟨?_, ?_, ?_, ?_⟩
  · intro v hf ha
    subst hf
    simp only [initializeAndLoadReviews, tryFetch, storeBaseline_accepted st v accepts ha,
      loadReviews_storage]
    exact storage_setItem_same _ _ _
  · intro data hf hd ha
    subst hd
    simp only [initializeAndLoadReviews, tryFetch_unusable st fetched accepts hf,
      storeBaseline_accepted st data accepts ha, loadReviews_storage]
    exact storage_setItem_same _ _ _
  · intro hf hd
    subst hd
    simp only [initializeAndLoadReviews, tryFetch_unusable st fetched accepts hf,
      loadReviews_storage]
  · unfold initializeAndLoadReviews
    cases h1 : tryFetch st fetched accepts with
    | some st1 =>
      simp only [loadReviews_storage]
      cases fetched with
      | networkError => cases h1
      | response ok body =>
        cases ok with
        | false => cases h1
        | true =>
          cases body with
          | none => cases h1
          | some v => exact storeBaseline_keeps_new st st1 v accepts h1
    | none =>
      cases avisData with
      | none => rfl
      | some data =>
        simp only
        cases h2 : storeBaseline st data accepts with
        | some st1 =>
          simp only [loadReviews_storage]
          exact storeBaseline_keeps_new st st1 data accepts h2
        | none => rfl

theorem baseline_load_witness :
    (initializeAndLoadReviews
      (rendered [] (LocalStorage.empty.setItem (lit "reviews-json") (.json (.arr []))))
      (.response true (some (.arr [.str (lit "B1")]))) none (fun _ => true)).storage.getItem
        (lit "reviews-json") = some (.json (.arr [.str (lit "B1")])) ∧
    (initializeAndLoadReviews
      (rendered [] (LocalStorage.empty.setItem (lit "reviews-json") (.json (.arr []))))
      (.response true none) (some (.arr [.str (lit "F1")])) (fun _ => true)).storage.getItem
        (lit "reviews-json") = some (.json (.arr [.str (lit "F1")])) :=
  ⟨(baseline_load
      (rendered [] (LocalStorage.empty.setItem (lit "reviews-json") (.json (.arr []))))
      (.response true (some (.arr [.str (lit "B1")]))) none (fun _ => true)).1
      (.arr [.str (lit "B1")]) rfl rfl,
   (baseline_load
      (rendered [] (LocalStorage.empty.setItem (lit "reviews-json") (.json (.arr []))))
      (.response true none) (some (.arr [.str (lit "F1")])) (fun _ => true)).2.1
      (.arr [.str (lit "F1")]) (Or.inr (Or.inl rfl)) rfl rfl⟩

/-- C17: for an integer rating `n` with `1 ≤ n ≤ 5`, given as a number or as its decimal
string, `getStarRating` returns the star glyph repeated `n` times. -/
theorem getStarRating_repeats (n : Int) (h1 : 1 ≤ n) (h5 : n ≤ 5) :
    getStarRating (some (.num n)) = some (List.replicate n.toNat stars).flatten ∧
    getStarRating (some (.str (decimal n))) = some (List.replicate n.toNat stars).flatten ∧
    (List.replicate n.toNat stars).flatten = List.replicate n.toNat 0x2B50 := by
  interval_cases n <;> exact ⟨by decide, by decide, by decide⟩

theorem getStarRating_repeats_witness :
    getStarRating (some (.num 4)) = some (List.replicate (4 : Int).toNat stars).flatten ∧
    getStarRating (some (.str (decimal 4))) = some (List.replicate (4 : Int).toNat stars).flatten ∧
    (List.replicate (4 : Int).toNat stars).flatten = List.replicate (4 : Int).toNat 0x2B50 :=
  getStarRating_repeats 4 (by decide) (by decide)

end ReviewManager

/-! ## Further properties of `escapeHtml` and the rendering of the cards -/

theorem escapeHtml_append (a b : JSString) :
    escapeHtml (a ++ b) = escapeHtml a ++ escapeHtml b := by
  rw [escapeHtml_eq_flatMap, escapeHtml_eq_flatMap, escapeHtml_eq_flatMap, List.flatMap_append]

theorem escapeImage_shape (c : CodeUnit) :
    c = 38 ∨ c = 60 ∨ c = 62 ∨ c = 34 ∨ c = 39 ∨ (escapeImage c = [c] ∧ c ≠ 38) := by
  by_cases h1 : c = 38
  · exact Or.inl h1
  by_cases h2 : c = 60
  · exact Or.inr (Or.inl h2)
  by_cases h3 : c = 62
  · exact Or.inr (Or.inr (Or.inl h3))
  by_cases h4 : c = 34
  · exact Or.inr (Or.inr (Or.inr (Or.inl h4)))
  by_cases h5 : c = 39
  · exact Or.inr (Or.inr (Or.inr (Or.inr (Or.inl h5))))
  refine Or.inr (Or.inr (Or.inr (Or.inr (Or.inr ⟨?_, h1⟩))))
  simp [escapeImage, h1, h2, h3, h4, h5]

theorem escapeImage_inj (c d : CodeUnit) (x y : JSString)
    (h : escapeImage c ++ x = escapeImage d ++ y) : c = d ∧ x = y := by
  have e1 : escapeImage 38 = [38, 97, 109, 112, 59] := by decide
  have e2 : escapeImage 60 = [38, 108, 116, 59] := by decide
  have e3 : escapeImage 62 = [38, 103, 116, 59] := by decide
  have e4 : escapeImage 34 = [38, 113, 117, 111, 116, 59] := by decide
  have e5 : escapeImage 39 = [38, 35, 48, 51, 57, 59] := by decide
  rcases escapeImage_shape c with hc | hc | hc | hc | hc | ⟨hc, hc38⟩ <;>
    rcases escapeImage_shape d with hd | hd | hd | hd | hd | ⟨hd, hd38⟩ <;>
    (try subst hc) <;> (try subst hd) <;>
    (try rw [hc] at h) <;> (try rw [hd] at h) <;>
    simp only [e1, e2, e3, e4, e5, List.cons_append, List.nil_append, List.cons.injEq] at h <;>
    first
      | (simp at h; done)
      | (simp at h; exact ⟨rfl, h⟩)
      | exact absurd h.1.symm hd38
      | exact absurd h.1 hc38
      | exact h

theorem escapeImage_ne_nil (c : CodeUnit) : escapeImage c ≠ [] := by
  rcases escapeImage_cases c with h | ⟨h, _⟩
  · have key : ∀ e ∈ entities, e ≠ [] := by decide
    exact key _ h
  · rw [h]
    exact List.cons_ne_nil _ _

theorem escapeHtml_injective (a b : JSString) (h : escapeHtml a = escapeHtml b) : a = b := by
  induction a generalizing b with
  | nil =>
    cases b with
    | nil => rfl
    | cons d ds =>
      rw [escapeHtml_cons] at h
      have hnil : escapeImage d ++ escapeHtml ds = [] := h.symm
      exact absurd (List.append_eq_nil.mp hnil).1 (escapeImage_ne_nil d)
  | cons c cs ih =>
    cases b with
    | nil =>
      rw [escapeHtml_cons] at h
      have hnil : escapeImage c ++ escapeHtml cs = [] := h
      exact absurd (List.append_eq_nil.mp hnil).1 (escapeImage_ne_nil c)
    | cons d ds =>
      rw [escapeHtml_cons, escapeHtml_cons] at h
      obtain ⟨hcd, hrest⟩ := escapeImage_inj c d _ _ h
      rw [hcd, ih ds hrest]

/-- C20: `escapeHtml` is compatible with concatenation, `escapeHtml(a + b)` being
`escapeHtml(a) + escapeHtml(b)`, and it is injective: two texts with the same escaped text
are equal. -/
theorem escapeHtml_concat_injective (a b : JSString) :
    escapeHtml (a ++ b) = escapeHtml a ++ escapeHtml b ∧
    (escapeHtml a = escapeHtml b → a = b) :=
  ⟨escapeHtml_append a b, escapeHtml_injective a b⟩

theorem escapeHtml_concat_injective_witness :
    escapeHtml (lit "a<" ++ lit "b>") = escapeHtml (lit "a<") ++ escapeHtml (lit "b>") :=
  (escapeHtml_concat_injective (lit "a<") (lit "b>")).1

namespace ReviewManager

theorem escapeHtml_count_raw (s : JSString) (ch : CodeUnit) (hch : ch ∈ [60, 62, 34, 39]) :
    (escapeHtml s).count ch = 0 := by
  rw [List.count_eq_zero]
  intro hmem
  obtain ⟨h1, h2, h3, h4⟩ := escapeHtml_no_raw s ch hmem
  simp only [List.mem_cons, List.mem_singleton, List.not_mem_nil, or_false] at hch
  rcases hch with h | h | h | h
  · exact h1 h
  · exact h2 h
  · exact h3 h
  · exact h4 h

theorem cardText_count (f : ReviewFields) (ch : CodeUnit) (hch : ch ∈ [60, 62, 34, 39]) :
    (cardText f).count ch = (cardText f.blank).count ch := by
  have hnil : escapeHtml [] = [] := rfl
  simp only [cardText, ReviewFields.blank, List.count_append, escapeHtml_count_raw _ ch hch,
    hnil, List.count_nil]

theorem card_of_fields (review : JSValue) (f : ReviewFields) (h : HasFields review f) :
    card review = (getStarRating (some (.str f.note))).map (fun _ => cardText f) := by
  obtain ⟨h1, h2, h3, h4, h5, h6⟩ := h
  cases hr : getStarRating (some (.str f.note)) with
  | none => simp only [card, h1, h2, h3, h4, h5, h6, escapeHtmlCall, hr, Option.map_none']
  | some rating =>
    simp only [card, h1, h2, h3, h4, h5, h6, escapeHtmlCall, hr, cardText, toStrOrUndefined,
      toStr, Option.getD_some, Option.map_some']

theorem mapM_card (reviews : List JSValue) (fs : List ReviewFields)
    (hfields : List.Forall₂ HasFields reviews fs)
    (hstars : ∀ f ∈ fs, (getStarRating (some (.str f.note))).isSome = true) :
    reviews.mapM card = some (fs.map cardText) := by
  induction hfields with
  | nil => rfl
  | cons hhead _ ih =>
    obtain ⟨rating, hr⟩ := Option.isSome_iff_exists.mp (hstars _ (List.mem_cons_self _ _))
    rw [List.mapM_cons, card_of_fields _ _ hhead, hr,
      ih (fun f hf => hstars f (List.mem_cons_of_mem _ hf))]
    rfl

theorem mapM_card_some (reviews : List JSValue) (fs : List ReviewFields)
    (hfields : List.Forall₂ HasFields reviews fs) (cards : List JSString)
    (h : reviews.mapM card = some cards) : cards = fs.map cardText := by
  induction hfields generalizing cards with
  | nil =>
    rw [List.mapM_nil] at h
    cases h
    rfl
  | @cons r f rest fsRest hhead _ ih =>
    rw [List.mapM_cons, card_of_fields _ _ hhead] at h
    cases hr : getStarRating (some (.str f.note)) with
    | none =>
      rw [hr] at h
      cases h
    | some rating =>
      rw [hr] at h
      cases hm : rest.mapM card with
      | none =>
        rw [hm] at h
        cases h
      | some cs =>
        rw [hm] at h
        cases h
        rw [ih cs hm]
        rfl

/-- C19: for a non-empty list of reviews whose six fields are strings, the markup produced
by `displayReviews` is the concatenation, in the order of the list, of the cards, each
being the fixed template around `escapeHtml(prenom)`, `escapeHtml(nom)`,
`escapeHtml(ville)`, the stars, the date and `escapeHtml(avis)`; it is produced whenever
`getStarRating` returns for every rating; and each card holds exactly as many `<`, `>`,
double quotes and apostrophes as the card of the same review with those four fields
emptied, so none comes from them. -/
theorem displayReviews_escapes (reviews : List JSValue) (fs : List ReviewFields)
    (hfields : List.Forall₂ HasFields reviews fs) (hne : reviews ≠ []) :
    (∀ html, displayReviews reviews = some html → html = (fs.map cardText).flatten) ∧
    ((∀ f ∈ fs, (getStarRating (some (.str f.note))).isSome = true) →
      displayReviews reviews = some (fs.map cardText).flatten) ∧
    (∀ f ∈ fs, ∀ ch ∈ [60, 62, 34, 39],
      (cardText f).count ch = (cardText f.blank).count ch) := by
  have hempty : reviews.isEmpty = false := by
    cases reviews with
    | nil => exact absurd rfl hne
    | cons r rest => rfl
  refine ⟨?_, ?_, fun f _ ch hch => cardText_count f ch hch⟩
  · intro html h
    simp only [displayReviews, hempty, Bool.false_eq_true, if_false] at h
    cases hm : reviews.mapM card with
    | none =>
      rw [hm] at h
      cases h
    | some cards =>
      rw [hm] at h
      cases h
      rw [mapM_card_some reviews fs hfields cards hm]
  · intro hstars
    simp only [displayReviews, hempty, Bool.false_eq_true, if_false,
      mapM_card reviews fs hfields hstars, Option.map_some']

theorem displayReviews_escapes_witness :
    displayReviews [reviewData (renderedForm (lit "<b>Martin</b>") (lit "Léa") (lit "Lyon")
        (lit "5") (lit "Travail \"soigné\" & rapide")) (lit "04/11/2026")]
      = some ([cardText
        { prenom := lit "Léa", nom := lit "<b>Martin</b>",
          ville := lit "Lyon", note := lit "5", date := lit "04/11/2026",
          avis := lit "Travail \"soigné\" & rapide" }].flatten) :=
  (displayReviews_escapes
    [reviewData (renderedForm (lit "<b>Martin</b>") (lit "Léa") (lit "Lyon")
        (lit "5") (lit "Travail \"soigné\" & rapide")) (lit "04/11/2026")]
    [{ prenom := lit "Léa", nom := lit "<b>Martin</b>",
       ville := lit "Lyon", note := lit "5", date := lit "04/11/2026",
       avis := lit "Travail \"soigné\" & rapide" }]
    (List.Forall₂.cons ⟨rfl, rfl, rfl, rfl, rfl, rfl⟩ List.Forall₂.nil)
    (List.cons_ne_nil _ _)).2.1
    (by
      intro f hf
      rw [List.mem_singleton] at hf
      subst hf
      decide)

end ReviewManager

/-! ## Routing of the pre-cached resources -/

namespace ServiceWorker

theorem isStaticUrl_append (origin path : JSString) (h : IsStaticUrl path) :
    IsStaticUrl (origin ++ path) := by
  have hs : path <:+ origin ++ path := List.suffix_append origin path
  rcases h with h | h | h | h | h
  · exact Or.inl (h.trans hs.isInfix)
  · exact Or.inr (Or.inl (h.trans hs.isInfix))
  · exact Or.inr (Or.inr (Or.inl (h.trans hs.isInfix)))
  · exact Or.inr (Or.inr (Or.inr (Or.inl (h.trans hs.isInfix))))
  · exact Or.inr (Or.inr (Or.inr (Or.inr (h.trans hs))))

theorem manifest_paths_static :
    ∀ path ∈ urlsToCache, path ≠ lit "/" → isStaticAsset path = true := by
  decide

/-- C21, as stated, fails: the manifest entry `/`, requested with `GET` from the origin
`https://example.org`, has the URL `https://example.org/`, which contains none of `/css/`,
`/js/`, `/img/`, `/video/` and does not end with `.html`; it is routed network first. -/
theorem manifest_root_counterexample :
    lit "/" ∈ urlsToCache ∧
    (Env.request { origin := lit "https://example.org", network := fun _ => none }
      (lit "/")).method = lit "GET" ∧
    (Env.request { origin := lit "https://example.org", network := fun _ => none }
      (lit "/")).url = lit "https://example.org/" ∧
    route (Env.request { origin := lit "https://example.org", network := fun _ => none }
      (lit "/")) = .networkFirst ∧
    route (Env.request { origin := lit "https://example.org", network := fun _ => none }
      (lit "/")) ≠ .cacheFirst := by
  decide

/-- C21, amended: every URL of the manifest `urlsToCache` other than the root document `/`
is routed by the `fetch` listener to the cache-first branch when requested with `GET`,
whatever the origin. -/
theorem manifest_routed_cache_first (env : Env) (path : JSString) (hmem : path ∈ urlsToCache)
    (hroot : path ≠ lit "/") :
    (env.request path).method = lit "GET" ∧
    route (env.request path) = .cacheFirst ∧
    (∀ caches, onFetch env caches (env.request path)
      = cacheFirst env caches (env.request path)) := by
  have hstatic : IsStaticUrl (env.request path).url :=
    isStaticUrl_append env.origin path
      ((isStaticAsset_iff path).mp (manifest_paths_static path hmem hroot))
  have hr : route (env.request path) = .cacheFirst :=
    (route_cacheFirst_iff (env.request path)).mpr ⟨rfl, hstatic⟩
  refine ⟨rfl, hr, ?_⟩
  intro caches
  simp only [onFetch, hr]

theorem manifest_routed_cache_first_witness :
    route (Env.request { origin := lit "https://example.org", network := fun _ => none }
      (lit "/index.html")) = .cacheFirst :=
  (manifest_routed_cache_first { origin := lit "https://example.org", network := fun _ => none }
    (lit "/index.html") (by decide) (by decide)).2.1

end ServiceWorker

end Site
